import Mathlib

/-!
# Restaurant dashboard: refresh loop, record filters and aggregation

A shallow embedding of `src/App.js` and `src/VisualData.js`.

* Values are decoded JSON (plus `undefined`); JSON numbers are modelled by integers.
* A property read on `null`/`undefined` throws; throwing code returns `Except String _`,
  the string being the `message` of the thrown error.
* The host environment (clock, time zone, `Date.parse`) is the parameter `Env`.
-/

namespace TajMahal

/-! ## JavaScript values -/

/-- JavaScript values held by the dashboard: decoded JSON, plus `undefined`. -/
inductive JVal where
  | undefined
  | null
  | bool (b : Bool)
  | num (n : Int)
  | str (s : String)
  | arr (items : List JVal)
  | obj (fields : List (String × JVal))

namespace JVal

/-- ToBoolean: the truthiness used by `!`, `&&`, `||` and filter callbacks. -/
def truthy : JVal → Bool
  | .undefined => false
  | .null => false
  | .bool b => b
  | .num n => n != 0
  | .str s => s != ""
  | .arr _ => true
  | .obj _ => true

/-- Models `Array.isArray(v)`. -/
def isArray : JVal → Bool
  | .arr _ => true
  | _ => false

/-- The elements of an array value (empty for every other value). -/
def items : JVal → List JVal
  | .arr xs => xs
  | _ => []

/-- True for `null` and `undefined`, the two values on which a property read throws. -/
def isNullish : JVal → Bool
  | .undefined => true
  | .null => true
  | _ => false

/-- True for objects, the shape of an order or reservation record. -/
def isObj : JVal → Bool
  | .obj _ => true
  | _ => false

/-- The optional-chaining read `v?.[k]`: the own property `k` of an object, `undefined`
when it is absent, when `v` is nullish, and for the field names this program reads
(none of them an index or `length`) on every other value. -/
def prop (v : JVal) (k : String) : JVal :=
  match v with
  | .obj fs => (fs.lookup k).getD .undefined
  | _ => .undefined

/-- Name of a nullish value as it appears in the engine's TypeError text. -/
def nullishName : JVal → String
  | .undefined => "undefined"
  | _ => "null"

/-- Message of the TypeError raised by reading property `k` of a nullish value
(the wording of V8). -/
def readError (v : JVal) (k : String) : String :=
  "Cannot read properties of " ++ nullishName v ++ " (reading '" ++ k ++ "')"

/-- The plain read `v.k` (or `v[k]`): throws a TypeError on `null` and `undefined`. -/
def get (v : JVal) (k : String) : Except String JVal :=
  if v.isNullish then .error (readError v k) else .ok (v.prop k)

end JVal

/-! ## Host environment and dates -/

/-- The host environment of one evaluation: the clock reading of `new Date()`, the local
time zone adjustment (a fixed offset, in milliseconds), `Date.parse`, and the string that
ToPrimitive yields for an array or object. -/
structure Env where
  now : Int
  tza : Int
  parse : String → Option Int
  stringify : JVal → String

/-- A Date object, by its time value: `none` is the Invalid Date (time value NaN). -/
abbrev DateObj := Option Int

def msPerDay : Int := 86400000

/-- TimeClip: time values beyond 8.64e15 ms from the epoch are NaN. -/
def timeClip (t : Int) : DateObj :=
  if t.natAbs ≤ 8640000000000000 then some t else none

/-- Models `new Date(v)` for a single argument `v`. -/
def newDate (env : Env) : JVal → DateObj
  | .undefined => none
  | .null => some 0
  | .bool b => some (if b then 1 else 0)
  | .num n => timeClip n
  | .str s => env.parse s
  | v => env.parse (env.stringify v)

/-- Day number of a time value: `Day(t) = floor(t / msPerDay)`. -/
def day (t : Int) : Int := t / msPerDay

/-- Milliseconds since the start of the day: `TimeWithinDay(t) = t mod msPerDay`. -/
def timeWithinDay (t : Int) : Int := t % msPerDay

/-- Civil date (year, month 0..11, day of month 1..31) of a day number in the proleptic
Gregorian calendar: `YearFromTime`, `MonthFromTime`, `DateFromTime`. -/
def civilFromDays (z0 : Int) : Int × Int × Int :=
  let z := z0 + 719468
  let era := z / 146097
  let doe := z - era * 146097
  let yoe := (doe - doe / 1460 + doe / 36524 - doe / 146096) / 365
  let doy := doe - (365 * yoe + yoe / 4 - yoe / 100)
  let mp := (5 * doy + 2) / 153
  let d := doy - (153 * mp + 2) / 5 + 1
  let m := if mp < 10 then mp + 2 else mp - 10
  let y := yoe + era * 400 + (if m ≤ 1 then 1 else 0)
  (y, m, d)

/-- Day number of the first day of month `m` (0..11) of year `y`. -/
def daysFromCivil (y0 m : Int) : Int :=
  let y := if m ≤ 1 then y0 - 1 else y0
  let era := y / 400
  let yoe := y - era * 400
  let doy := (153 * (if m > 1 then m - 2 else m + 10) + 2) / 5
  let doe := yoe * 365 + yoe / 4 - yoe / 100 + doy
  era * 146097 + doe - 719468

/-- MakeDay: months outside 0..11 carry into the year, days outside the month carry into
the neighbouring months. -/
def makeDay (year month date : Int) : Int :=
  daysFromCivil (year + month / 12) (month % 12) + date - 1

/-- Models `d.getDate()`: the day of the month in local time. -/
def getDate (env : Env) (t : Int) : Int := (civilFromDays (day (t + env.tza))).2.2

/-- Models `d.getMonth()`: the month (0..11) in local time. -/
def getMonth (env : Env) (t : Int) : Int := (civilFromDays (day (t + env.tza))).2.1

/-- Models `d.setDate(dt)` on a valid date: returns the new time value. -/
def setDate (env : Env) (t : Int) (dt : Int) : DateObj :=
  let loc := t + env.tza
  let c := civilFromDays (day loc)
  timeClip (makeDay c.1 c.2.1 dt * msPerDay + timeWithinDay loc - env.tza)

/-- Models `d.setMonth(mo)` on a valid date: returns the new time value. -/
def setMonth (env : Env) (t : Int) (mo : Int) : DateObj :=
  let loc := t + env.tza
  let c := civilFromDays (day loc)
  timeClip (makeDay c.1 mo c.2.2 * msPerDay + timeWithinDay loc - env.tza)

/-- The relation `a >= b` on two Date objects: both are converted to their time values and
a comparison with NaN is false. -/
def dateGe (a b : DateObj) : Bool :=
  match a, b with
  | some x, some y => decide (y ≤ x)
  | _, _ => false

/-- The relation `d >= cutoff` where `cutoff` is a Date object or `null` (`none`);
`null` converts to the number 0. -/
def geCutoff (d : DateObj) (cutoff : Option DateObj) : Bool :=
  match cutoff with
  | none => dateGe d (some 0)
  | some c => dateGe d c

def weekDayNames : List String := ["Sun", "Mon", "Tue", "Wed", "Thu", "Fri", "Sat"]

def monthNames : List String :=
  ["Jan", "Feb", "Mar", "Apr", "May", "Jun", "Jul", "Aug", "Sep", "Oct", "Nov", "Dec"]

/-- Decimal rendering of `n`, zero-padded on the left to at least `w` digits. -/
def zeroPad (w n : Nat) : String :=
  String.mk (List.replicate (w - (toString n).length) '0') ++ toString n

/-- Models `d.toDateString()`: weekday, month, day and year of the local calendar date,
as in `Wed Jan 03 2024`. -/
def toDateString (env : Env) : DateObj → String
  | none => "Invalid Date"
  | some t =>
    let dn := day (t + env.tza)
    let c := civilFromDays dn
    weekDayNames.getD ((dn + 4) % 7).toNat "" ++ " " ++ monthNames.getD c.2.1.toNat "" ++ " "
      ++ zeroPad 2 c.2.2.toNat ++ " " ++ (if c.1 < 0 then "-" else "") ++ zeroPad 4 c.1.natAbs

/-- Models `d.toLocaleDateString()`: the local calendar date, rendered in the `en-US`
form month/day/year. A rendering contains `/`, so it is never an integer-like property
name. -/
def toLocaleDateString (env : Env) : DateObj → String
  | none => "Invalid Date"
  | some t =>
    let c := civilFromDays (day (t + env.tza))
    toString (c.2.1 + 1) ++ "/" ++ toString c.2.2 ++ "/" ++ toString c.1

/-! ## Array helpers -/

/-- Models `xs.filter(p)` for a callback that may throw: elements are visited left to
right and the first exception aborts the call. -/
def filterE {α ε : Type} (p : α → Except ε Bool) : List α → Except ε (List α)
  | [] => .ok []
  | x :: xs =>
    match p x with
    | .error e => .error e
    | .ok b =>
      match filterE p xs with
      | .error e => .error e
      | .ok ys => .ok (if b then x :: ys else ys)

/-- Value of the comparator `(a, b) => new Date(b[f]) - new Date(a[f])` on two non-nullish
records, as the sort reads it: a NaN result counts as `+0`. -/
def compareTimes (env : Env) (f : String) (a b : JVal) : Int :=
  match newDate env (b.prop f), newDate env (a.prop f) with
  | some tb, some ta => tb - ta
  | _, _ => 0

/-- The record `a` is not placed after `b`: the comparator does not return a positive
number. -/
def notAfter (env : Env) (f : String) (a b : JVal) : Prop := compareTimes env f a b ≤ 0

instance (env : Env) (f : String) : DecidableRel (notAfter env f) :=
  fun a b => inferInstanceAs (Decidable (compareTimes env f a b ≤ 0))

/-- Models `xs.sort((a, b) => new Date(b[f]) - new Date(a[f]))`. With fewer than two
elements the comparator is never called. With two or more, every element is passed to it:
reading `f` of a `null` element throws. Otherwise the result is the stable sort by the
sign of the comparator. (Elements are decoded JSON, hence never `undefined`, which `sort`
would set aside without a call. When some date is invalid the comparator is not consistent
and ECMAScript leaves the order to the engine; the model then inserts right to left.) -/
def sortNewestFirst (env : Env) (f : String) (xs : List JVal) : Except String (List JVal) :=
  if 2 ≤ xs.length then
    match xs.find? JVal.isNullish with
    | some v => .error (JVal.readError v f)
    | none => .ok (xs.insertionSort (notAfter env f))
  else .ok xs

/-! ## `App.js` -/

namespace App

/-- The component state read or written by the modelled functions. -/
structure State where
  orders : List JVal
  reservations : List JVal
  loading : Bool
  error : String
  menuOption : String
  dateFilter : String

/-- The initial state set up by the `useState` calls. -/
def init : State :=
  { orders := [], reservations := [], loading := true, error := "",
    menuOption := "Tap & Collect", dateFilter := "all" }

/-- A resolved `fetch`: the `ok` flag, the status text, and the result of `json()`
(a decoded body, or the message of the rejection). -/
structure Response where
  ok : Bool
  statusText : String
  json : Except String JVal

/-- The predicate kept by the orders filter of `fetchData`:
`order && order.dishes && Array.isArray(order.dishes)`. -/
def hasDishes (order : JVal) : Bool :=
  order.truthy && (order.prop "dishes").truthy && (order.prop "dishes").isArray

/-- The `try` block of `fetchData`: the two collections to store, or the message of the
error thrown. The arguments are the outcomes of the two `fetch` calls (`.error` is a
rejected call, a network fault); the second call is only made when the first body has
been read. -/
def fetchCycle (env : Env) (ordersFetch reservationsFetch : Except String Response) :
    Except String (List JVal × List JVal) := do
  let ordersResponse ← ordersFetch
  if !ordersResponse.ok then
    throw ("Error fetching orders: " ++ ordersResponse.statusText)
  let ordersData ← ordersResponse.json
  let reservationsResponse ← reservationsFetch
  if !reservationsResponse.ok then
    throw ("Error fetching reservations: " ++ reservationsResponse.statusText)
  let reservationsData ← reservationsResponse.json
  let orders ← ordersData.get "orders"
  if !orders.truthy || !orders.isArray then
    throw "Invalid orders data structure received from server"
  let reservations ← reservationsData.get "reservations"
  if !reservations.truthy || !reservations.isArray then
    throw "Invalid reservations data structure received from server"
  let sortedOrders ← sortNewestFirst env "orderTime" (orders.items.filter hasDishes)
  let sortedReservations ← sortNewestFirst env "date" reservations.items
  pure (sortedOrders, sortedReservations)

/-- One refresh cycle, `fetchData`: the state after the cycle. -/
def fetchData (env : Env) (st : State) (ordersFetch reservationsFetch : Except String Response) :
    State :=
  match fetchCycle env ordersFetch reservationsFetch with
  | .ok (sortedOrders, sortedReservations) =>
    { st with orders := sortedOrders, reservations := sortedReservations, error := "",
              loading := false }
  | .error message =>
    { st with error := message, orders := [], reservations := [], loading := false }

/-- Models `getDateRange`: `none` is the `null` of the default branch. -/
def getDateRange (env : Env) (dateFilter : String) : Option DateObj :=
  match dateFilter with
  | "1day" => some (setDate env env.now (getDate env env.now - 1))
  | "3days" => some (setDate env env.now (getDate env env.now - 3))
  | "1week" => some (setDate env env.now (getDate env env.now - 7))
  | "15days" => some (setDate env env.now (getDate env env.now - 15))
  | "1month" => some (setMonth env env.now (getMonth env env.now - 1))
  | _ => none

/-- The callback `r => r[f] && new Date(r[f]) >= cutoffDate` of the date filters. -/
def inWindow (env : Env) (f : String) (cutoffDate : Option DateObj) (r : JVal) :
    Except String Bool := do
  let t ← r.get f
  pure (t.truthy && geCutoff (newDate env t) cutoffDate)

/-- The callback of the "Tap & Collect" view:
`order.deliveryOption === 'tapAndCollect' || order.deliveryOption === 'pickup'`. -/
def isTapCollect (order : JVal) : Except String Bool := do
  let o ← order.get "deliveryOption"
  pure (o matches .str "tapAndCollect" || o matches .str "pickup")

/-- The callback of the "Delivery Orders" view: `order.deliveryOption === 'delivery'`. -/
def isDelivery (order : JVal) : Except String Bool := do
  let o ← order.get "deliveryOption"
  pure (o matches .str "delivery")

/-- The date stage of `filterOrdersByTypeAndDate`, applied unless the selection is
`"all"`. -/
def dateStage (env : Env) (dateFilter : String) (orders : List JVal) :
    Except String (List JVal) :=
  if dateFilter ≠ "all" then
    filterE (inWindow env "orderTime" (getDateRange env dateFilter)) orders
  else .ok orders

/-- The menu-option stage of `filterOrdersByTypeAndDate`. -/
def typeStage (menuOption : String) (orders : List JVal) : Except String (List JVal) :=
  if menuOption = "Tap & Collect" then filterE isTapCollect orders
  else if menuOption = "Delivery Orders" then filterE isDelivery orders
  else .ok orders

/-- Models `filterOrdersByTypeAndDate`, over the held orders and the two selections. -/
def filterOrdersByTypeAndDate (env : Env) (orders : List JVal) (dateFilter menuOption : String) :
    Except String (List JVal) := do
  let filteredOrders ← dateStage env dateFilter orders
  typeStage menuOption filteredOrders

/-- Models `filterReservationsByDate`. -/
def filterReservationsByDate (env : Env) (reservations : List JVal) (dateFilter : String) :
    Except String (List JVal) :=
  if dateFilter = "all" then .ok reservations
  else filterE (inWindow env "date" (getDateRange env dateFilter)) reservations

/-- The callback of `pendingDeliveryCount`. -/
def isPendingDelivery (env : Env) (dateFilter : String) (order : JVal) : Except String Bool := do
  let o ← order.get "deliveryOption"
  pure ((o matches .str "delivery") && !(order.prop "isDelivered").truthy &&
    (dateFilter == "all" || ((order.prop "orderTime").truthy &&
      geCutoff (newDate env (order.prop "orderTime")) (getDateRange env dateFilter))))

/-- The callback of `pendingPickupCount`. -/
def isPendingPickup (env : Env) (dateFilter : String) (order : JVal) : Except String Bool := do
  let o ← order.get "deliveryOption"
  pure ((o matches .str "tapAndCollect" || o matches .str "pickup") &&
    !(order.prop "isDelivered").truthy &&
    (dateFilter == "all" || ((order.prop "orderTime").truthy &&
      geCutoff (newDate env (order.prop "orderTime")) (getDateRange env dateFilter))))

/-- The callback of `upcomingReservationsCount`. -/
def isUpcoming (env : Env) (dateFilter : String) (reservation : JVal) : Except String Bool := do
  let d ← reservation.get "date"
  pure (dateGe (newDate env d) (some env.now) &&
    (dateFilter == "all" || geCutoff (newDate env d) (getDateRange env dateFilter)))

/-- Models `pendingDeliveryCount`. -/
def pendingDeliveryCount (env : Env) (orders : List JVal) (dateFilter : String) :
    Except String Nat :=
  (filterE (isPendingDelivery env dateFilter) orders).map List.length

/-- Models `pendingPickupCount`. -/
def pendingPickupCount (env : Env) (orders : List JVal) (dateFilter : String) :
    Except String Nat :=
  (filterE (isPendingPickup env dateFilter) orders).map List.length

/-- Models `upcomingReservationsCount`. -/
def upcomingReservationsCount (env : Env) (reservations : List JVal) (dateFilter : String) :
    Except String Nat :=
  (filterE (isUpcoming env dateFilter) reservations).map List.length

/-- An order identifier handed to a handler. Identifiers are primitive values, which `===`
compares by value. -/
inductive Ident where
  | undefined
  | null
  | bool (b : Bool)
  | num (n : Int)
  | str (s : String)

/-- The comparison `v === id` of a value with a primitive identifier. -/
def strictEq : JVal → Ident → Bool
  | .undefined, .undefined => true
  | .null, .null => true
  | .bool a, .bool b => a == b
  | .num a, .num b => a == b
  | .str a, .str b => a == b
  | _, _ => false

/-- The own enumerable properties copied by the spread `...v`. -/
def ownProps : JVal → List (String × JVal)
  | .obj fs => fs
  | .arr xs => xs.enum.map (fun p => (toString p.1, p.2))
  | .str s => s.toList.enum.map (fun p => (toString p.1, JVal.str (String.singleton p.2)))
  | _ => []

/-- Assignment of property `k` in a property list: an existing entry keeps its place,
a new one goes last. -/
def setField (k : String) (v : JVal) : List (String × JVal) → List (String × JVal)
  | [] => [(k, v)]
  | (k', v') :: fs => if k' = k then (k, v) :: fs else (k', v') :: setField k v fs

/-- The callback of the state update in `handleMarkAsDelivered`:
`order && order._id === orderId ? { ...order, isDelivered: true } : order`. -/
def markDelivered (orderId : Ident) (order : JVal) : JVal :=
  if order.truthy && strictEq (order.prop "_id") orderId then
    .obj (setField "isDelivered" (.bool true) (ownProps order))
  else order

/-- ToString of a truthy value, as the `Error` constructor applies it to its argument. -/
def messageOf (env : Env) : JVal → String
  | .str s => s
  | .num n => toString n
  | .bool b => if b then "true" else "false"
  | v => env.stringify v

/-- Models `handleMarkAsDelivered`: the state after the call, given the outcome of the
request (`.error` is a rejected `fetch`). -/
def handleMarkAsDelivered (env : Env) (st : State) (orderId : Ident)
    (response : Except String Response) : State :=
  let attempt : Except String Unit := do
    let response ← response
    if !response.ok then
      let data ← response.json
      let e ← data.get "error"
      throw (if e.truthy then messageOf env e else "Error marking order as delivered")
    pure ()
  match attempt with
  | .ok _ => { st with orders := st.orders.map (markDelivered orderId) }
  | .error message => { st with error := message }

end App

/-! ## `VisualData.js` -/

namespace VisualData

/-- The callback of the rolling windows of `filterByDate`:
`item => item?.[dateField] && new Date(item[dateField]) >= cutoff`. -/
def sinceCutoff (env : Env) (dateField : String) (cutoff : DateObj) (item : JVal) : Bool :=
  (item.prop dateField).truthy && dateGe (newDate env (item.prop dateField)) cutoff

/-- The callback of the "Today" selection of `filterByDate`. -/
def isToday (env : Env) (dateField : String) (item : JVal) : Bool :=
  (item.prop dateField).truthy &&
    toDateString env (newDate env (item.prop dateField)) == toDateString env (some env.now)

/-- Models `filterByDate(data, dateField)` under the selection `dateFilter`. -/
def filterByDate (env : Env) (dateFilter : String) (data : List JVal)
    (dateField : String) : List JVal :=
  if dateFilter = "Today" then data.filter (isToday env dateField)
  else if dateFilter = "Last 3 Days" then
    data.filter (sinceCutoff env dateField (setDate env env.now (getDate env env.now - 3)))
  else if dateFilter = "Last 15 Days" then
    data.filter (sinceCutoff env dateField (setDate env env.now (getDate env env.now - 15)))
  else if dateFilter = "Last Month" then
    data.filter (sinceCutoff env dateField (setMonth env env.now (getMonth env env.now - 1)))
  else data

/-- The update `acc[date] = (acc[date] || 0) + 1` on an object whose properties are listed
in creation order. -/
def bump : List (String × Nat) → String → List (String × Nat)
  | [], date => [(date, 1)]
  | (k, n) :: rest, date =>
    if k = date then (k, n + 1) :: rest else (k, n) :: bump rest date

/-- The reducer of `processTimeSeriesData`: records without a truthy date field are
skipped, the others are counted under their rendered local date. -/
def countByDate (env : Env) (dateField : String) (acc : List (String × Nat)) (item : JVal) :
    List (String × Nat) :=
  if !(item.prop dateField).truthy then acc
  else bump acc (toLocaleDateString env (newDate env (item.prop dateField)))

/-- The object `grouped` of `processTimeSeriesData`. -/
def grouped (env : Env) (data : List JVal) (dateField : String) : List (String × Nat) :=
  data.foldl (countByDate env dateField) []

/-- The part of a chart description that depends on the data: the labels and the values
of the single dataset. -/
structure Chart where
  labels : List String
  data : List Nat
deriving DecidableEq

/-- Models `processTimeSeriesData(data, dateField)`. -/
def processTimeSeriesData (env : Env) (data : List JVal) (dateField : String) : Chart :=
  { labels := (grouped env data dateField).map Prod.fst,
    data := (grouped env data dateField).map Prod.snd }

/-- Models `deliveryOrders`, the filter `o => o.deliveryOption === 'delivery'` over the
filtered orders. -/
def deliveryOrders (filteredOrders : List JVal) : Except String (List JVal) :=
  filterE App.isDelivery filteredOrders

/-- Models `tapCollectOrders`, the filter
`o => o.deliveryOption === 'tapAndCollect' || o.deliveryOption === 'pickup'` over the
filtered orders. -/
def tapCollectOrders (filteredOrders : List JVal) : Except String (List JVal) :=
  filterE App.isTapCollect filteredOrders

/-- Models `processOrderTypeData`. -/
def processOrderTypeData (filteredOrders : List JVal) : Except String Chart := do
  let delivery ← deliveryOrders filteredOrders
  let tapCollect ← tapCollectOrders filteredOrders
  pure { labels := ["Delivery", "Tap & Collect"], data := [delivery.length, tapCollect.length] }

/-- The callback `r => new Date(r.date) >= now` of `processReservationStatusData`. -/
def notBeforeNow (env : Env) (r : JVal) : Except String Bool := do
  let d ← r.get "date"
  pure (dateGe (newDate env d) (some env.now))

/-- Models `processReservationStatusData`. The difference
`filteredReservations.length - upcoming` is never negative, the filter returning a part of
its input. -/
def processReservationStatusData (env : Env) (filteredReservations : List JVal) :
    Except String Chart := do
  let upcoming ← filterE (notBeforeNow env) filteredReservations
  let past := filteredReservations.length - upcoming.length
  pure { labels := ["Upcoming", "Past"], data := [upcoming.length, past] }

/-- A result of `Math.round` on a ratio of counts: NaN, Infinity, or an integer. -/
inductive JNum where
  | nan
  | infinity
  | int (n : Int)
deriving DecidableEq

/-- The integer nearest to `n / d`, a tie going to the even one. -/
def roundHalfEven (n d : Nat) : Nat :=
  let q := n / d
  let r := n % d
  if 2 * r < d then q else if d < 2 * r then q + 1 else if q % 2 = 0 then q else q + 1

/-- The number of halvings that bring `n` below 2, at most `fuel` of them. -/
def halvings : Nat → Nat → Nat
  | 0, _ => 0
  | fuel + 1, n => if n < 2 then 0 else halvings fuel (n / 2) + 1

/-- The exponent of the leading bit of a positive number: `floor(log2 n)`. -/
def leadingBit (n : Nat) : Nat := halvings n n

/-- The double nearest to the positive ratio `n / d` (53 significant bits, ties to even), as
a fraction whose denominator is a power of two. Counts and their percentages lie far inside
the exponent range of doubles. -/
def nearestDouble (n d : Nat) : Nat × Nat :=
  let k0 : Int := (leadingBit n : Int) - (leadingBit d : Int)
  let ge : Bool :=
    if 0 ≤ k0 then decide (d * 2 ^ k0.toNat ≤ n) else decide (d ≤ n * 2 ^ (-k0).toNat)
  let k : Int := if ge then k0 else k0 - 1
  let s : Int := 52 - k
  let m := roundHalfEven (n * 2 ^ s.toNat) (d * 2 ^ (-s).toNat)
  (m * 2 ^ (-s).toNat, 2 ^ s.toNat)

/-- Models `Math.round(part / whole * 100)` on two counts: `0 / 0` is NaN and a positive
count over `0` is Infinity, both kept by the multiplication and by `Math.round`; otherwise
the quotient is a double, its product with 100 is a double, and `Math.round` takes the
nearest integer, halves upwards. -/
def percent (part whole : Nat) : JNum :=
  if whole = 0 then (if part = 0 then .nan else .infinity)
  else if part = 0 then .int 0
  else
    let q := nearestDouble part whole
    let x := nearestDouble (q.1 * 100) q.2
    .int (((2 * x.1 + x.2) / (2 * x.2) : Nat) : Int)

/-- The percentage computed by the tooltip callback of `pieOptions` for the slice `index`
of a dataset: `value = ctx.raw || 0`, `total` the sum of the dataset. -/
def piePercentage (data : List Nat) (index : Nat) : JNum :=
  percent (data.getD index 0) data.sum

/-- Models the read `dates[k]` of a count in a histogram object (for a key of the
object). -/
def countIn (dates : List (String × Nat)) (k : String) : Nat :=
  (dates.lookup k).getD 0

/-- Models the best day of `calculateSummary`: `"N/A"` when `Object.keys(dates)` is empty,
otherwise `Object.keys(dates).reduce((a, b) => dates[a] > dates[b] ? a : b)`. -/
def bestDay (dates : List (String × Nat)) : String :=
  match dates.map Prod.fst with
  | [] => "N/A"
  | k :: ks => ks.foldl (fun a b => if countIn dates a > countIn dates b then a else b) k

/-- The object returned by `calculateSummary`. -/
structure Summary where
  totalOrders : Nat
  totalReservations : Nat
  deliveryOrders : Nat
  tapCollectOrders : Nat
  upcomingReservations : Nat
  bestOrderDay : String
  bestOrderDayCount : Nat
  bestResDay : String
  bestResDayCount : Nat
deriving DecidableEq

/-- Models `calculateSummary`, together with the two category filters that the component
evaluates before it and that it reads. -/
def calculateSummary (env : Env) (filteredOrders filteredReservations : List JVal) :
    Except String Summary := do
  let delivery ← deliveryOrders filteredOrders
  let tapCollect ← tapCollectOrders filteredOrders
  let reservationData ← processReservationStatusData env filteredReservations
  let orderDates := grouped env filteredOrders "orderTime"
  let bestOrderDay := bestDay orderDates
  let reservationDates := grouped env filteredReservations "date"
  let bestResDay := bestDay reservationDates
  pure
    { totalOrders := filteredOrders.length
      totalReservations := filteredReservations.length
      deliveryOrders := delivery.length
      tapCollectOrders := tapCollect.length
      upcomingReservations := reservationData.data.getD 0 0
      bestOrderDay := bestOrderDay
      bestOrderDayCount := if bestOrderDay ≠ "N/A" then countIn orderDates bestOrderDay else 0
      bestResDay := bestResDay
      bestResDayCount := if bestResDay ≠ "N/A" then countIn reservationDates bestResDay else 0 }

/-- The percentage shown with the delivery count:
`Math.round(summaryStats.deliveryOrders / summaryStats.totalOrders * 100)`, which is also
`Math.round(deliveryOrders.length / filteredOrders.length * 100)` of the orders tab. -/
def deliveryPercent (s : Summary) : JNum := percent s.deliveryOrders s.totalOrders

/-- The percentage shown with the tap-and-collect count. -/
def tapCollectPercent (s : Summary) : JNum := percent s.tapCollectOrders s.totalOrders

/-- The percentage shown with the upcoming reservations:
`Math.round(summaryStats.upcomingReservations / summaryStats.totalReservations * 100)`. -/
def upcomingPercent (s : Summary) : JNum := percent s.upcomingReservations s.totalReservations

end VisualData

/-! ## Specification vocabulary -/

/-- A decoded body passes the shape check of `fetchData` for `field`: the field is present
(truthy) and holds an array. -/
def shapeOk (body : JVal) (field : String) : Bool :=
  (body.prop field).truthy && (body.prop field).isArray

/-- A refresh cycle in which a fetch fails by its status or by the shape of its payload:
the orders response is not a success; or the orders body is read and the reservations
response is not a success; or both bodies are read and one of them fails the shape check. -/
def StatusOrShapeFailure (ordersFetch reservationsFetch : Except String App.Response) : Prop :=
  ∃ o, ordersFetch = .ok o ∧
    (o.ok = false ∨
      ∃ od, o.json = .ok od ∧ ∃ r, reservationsFetch = .ok r ∧
        (r.ok = false ∨
          ∃ rd, r.json = .ok rd ∧
            (shapeOk od "orders" = false ∨ shapeOk rd "reservations" = false)))

/-- A refresh cycle in which both responses are successes whose bodies `od` and `rd` are
read and pass the shape check. -/
def BothSucceed (ordersFetch reservationsFetch : Except String App.Response) (od rd : JVal) :
    Prop :=
  ∃ o r, ordersFetch = .ok o ∧ reservationsFetch = .ok r ∧ o.ok = true ∧ r.ok = true ∧
    o.json = .ok od ∧ r.json = .ok rd ∧
    shapeOk od "orders" = true ∧ shapeOk rd "reservations" = true

/-- The record `r` carries a timestamp under `f` that `new Date` reads as a valid instant. -/
def validTime (env : Env) (f : String) (r : JVal) : Prop :=
  (newDate env (r.prop f)).isSome = true

instance (env : Env) (f : String) (r : JVal) : Decidable (validTime env f r) :=
  inferInstanceAs (Decidable (_ = true))

/-- The record `a` is at least as recent as `b` by the field `f`, in the sense of `>=` on
the two Date objects. -/
def newerEq (env : Env) (f : String) (a b : JVal) : Prop :=
  dateGe (newDate env (a.prop f)) (newDate env (b.prop f)) = true

instance (env : Env) (f : String) : DecidableRel (newerEq env f) :=
  fun _ _ => inferInstanceAs (Decidable (_ = true))

/-- The date test of the filters on a record that is not nullish: the timestamp under `f`
is truthy and its Date is `>=` the cutoff. -/
def keptByDate (env : Env) (f : String) (cutoff : Option DateObj) (r : JVal) : Bool :=
  (r.prop f).truthy && geCutoff (newDate env (r.prop f)) cutoff

/-- The "Tap & Collect" test on a record that is not nullish. -/
def tapCollectLike (o : JVal) : Bool :=
  (o.prop "deliveryOption" matches .str "tapAndCollect") ||
    (o.prop "deliveryOption" matches .str "pickup")

/-- The "Delivery Orders" test on a record that is not nullish. -/
def deliveryLike (o : JVal) : Bool :=
  o.prop "deliveryOption" matches .str "delivery"

/-- The record `r` has no usable timestamp under `f`: the field is missing (or otherwise
falsy), or `new Date` reads it as the Invalid Date. -/
def lacksTime (env : Env) (f : String) (r : JVal) : Prop :=
  (r.prop f).truthy = false ∨ newDate env (r.prop f) = none

/-- The rendered local dates of the records of `data` that carry a truthy timestamp under
`f`, in input order: one entry per counted record. -/
def renderedDates (env : Env) (data : List JVal) (f : String) : List String :=
  (data.filter (fun r => (r.prop f).truthy)).map
    (fun r => toLocaleDateString env (newDate env (r.prop f)))

/-- The reservation `r` is upcoming: its Date is `>=` the clock reading. -/
def upcomingLike (env : Env) (r : JVal) : Bool :=
  dateGe (newDate env (r.prop "date")) (some env.now)

/-- The order `o` is pending: its `isDelivered` flag is not truthy. -/
def pendingLike (o : JVal) : Bool :=
  !(o.prop "isDelivered").truthy

/-- The day `best` with the count `count` is a best day of the daily histogram of `data`
under `f`: when some record carries a timestamp, `best` is a label of the histogram, no label
has more records than `best`, and `count` is the number of records of `best`; when none
does, `best` is `"N/A"` and `count` is 0. -/
def BestDayOf (env : Env) (data : List JVal) (f : String) (best : String) (count : Nat) :
    Prop :=
  (renderedDates env data f ≠ [] →
    best ∈ (VisualData.processTimeSeriesData env data f).labels ∧
    (∀ l ∈ (VisualData.processTimeSeriesData env data f).labels,
      (renderedDates env data f).count l ≤ (renderedDates env data f).count best) ∧
    count = (renderedDates env data f).count best) ∧
  (renderedDates env data f = [] → best = "N/A" ∧ count = 0)

/-- The day `best` is the last of the days with the largest count, in the order of the
labels of the daily histogram of `data` under `f`: no label before it has more records,
and every label after it has fewer. -/
def LastBestDayOf (env : Env) (data : List JVal) (f : String) (best : String) : Prop :=
  ∃ pre post, (VisualData.processTimeSeriesData env data f).labels = pre ++ best :: post ∧
    (∀ l ∈ pre, (renderedDates env data f).count l ≤ (renderedDates env data f).count best) ∧
    (∀ l ∈ post, (renderedDates env data f).count l < (renderedDates env data f).count best)

/-- The results of a date filter over `rs` under the rolling windows are nested: each of
`"1day"`, `"3days"`, `"1week"`, `"15days"`, `"1month"`, `"all"` returns, and what one
window returns is a subsequence of what the next wider one returns. -/
def NestedWindows (filter : String → Except String (List JVal)) (rs : List JVal) : Prop :=
  ∃ o1 o3 o7 o15 o30,
    filter "1day" = .ok o1 ∧ filter "3days" = .ok o3 ∧ filter "1week" = .ok o7 ∧
    filter "15days" = .ok o15 ∧ filter "1month" = .ok o30 ∧ filter "all" = .ok rs ∧
    o1.Sublist o3 ∧ o3.Sublist o7 ∧ o7.Sublist o15 ∧ o15.Sublist o30 ∧ o30.Sublist rs

/-- The selections offered by the date filter of `App.js`. -/
def appSelections : List String := ["all", "1day", "3days", "1week", "15days", "1month"]

/-- The selections handled by `filterByDate` of `VisualData.js`. -/
def chartSelections : List String := ["Today", "Last 3 Days", "Last 15 Days", "Last Month"]

/-! ## Sample data -/

namespace Sample

/-- An environment whose clock reads 2024-03-31T12:00:00Z, in the UTC zone. The sample
records carry numeric time values, so `Date.parse` is never consulted. -/
def env : Env :=
  { now := 1711886400000, tza := 0, parse := fun _ => none, stringify := fun _ => "" }

/-- A delivery order placed on 2024-03-29. -/
def orderA : JVal :=
  .obj [("_id", .str "a"), ("dishes", .arr [.obj [("name", .str "Dal"), ("quantity", .num 1)]]),
        ("orderTime", .num 1711700000000), ("deliveryOption", .str "delivery"),
        ("isDelivered", .bool false)]

/-- A pickup order placed on 2024-03-31. -/
def orderB : JVal :=
  .obj [("_id", .str "b"), ("dishes", .arr [.obj [("name", .str "Naan"), ("quantity", .num 2)]]),
        ("orderTime", .num 1711880000000), ("deliveryOption", .str "pickup")]

/-- A delivery order placed on 2024-03-31. -/
def orderC : JVal :=
  .obj [("_id", .str "c"), ("dishes", .arr [.obj [("name", .str "Chai"), ("quantity", .num 1)]]),
        ("orderTime", .num 1711883000000), ("deliveryOption", .str "delivery")]

/-- An order record that carries no `dishes` list. -/
def orderNoDishes : JVal :=
  .obj [("_id", .str "d"), ("orderTime", .num 1711880000000), ("deliveryOption", .str "delivery")]

/-- An order record that carries no `orderTime`. -/
def orderNoTime : JVal :=
  .obj [("_id", .str "e"), ("dishes", .arr [.obj [("name", .str "Dal"), ("quantity", .num 1)]]),
        ("deliveryOption", .str "delivery")]

/-- An order whose delivery option is neither of the two known categories. -/
def orderNoCategory : JVal :=
  .obj [("_id", .str "f"), ("dishes", .arr [.obj [("name", .str "Lassi"), ("quantity", .num 1)]]),
        ("orderTime", .num 1711884000000), ("deliveryOption", .str "dineIn")]

/-- A reservation for 2024-04-02. -/
def reservationA : JVal :=
  .obj [("_id", .str "r1"), ("name", .str "Asha"), ("date", .num 1712059200000),
        ("guests", .num 4)]

/-- A reservation for 2024-03-29. -/
def reservationB : JVal :=
  .obj [("_id", .str "r2"), ("name", .str "Ben"), ("date", .num 1711700000000),
        ("guests", .num 2)]

/-- A reservation for 2024-04-05. -/
def reservationC : JVal :=
  .obj [("_id", .str "r4"), ("name", .str "Dee"), ("date", .num 1712318400000),
        ("guests", .num 3)]

/-- A reservation record that carries no `date`. -/
def reservationNoDate : JVal :=
  .obj [("_id", .str "r3"), ("name", .str "Cy")]

/-- The body of an orders response that lists `xs`. -/
def ordersBody (xs : List JVal) : JVal := .obj [("orders", .arr xs)]

/-- The body of a reservations response that lists `xs`. -/
def reservationsBody (xs : List JVal) : JVal := .obj [("reservations", .arr xs)]

/-- A successful response with the decoded body `body`. -/
def success (body : JVal) : Except String App.Response :=
  .ok { ok := true, statusText := "OK", json := .ok body }

/-- A response with a non-success status and an error body. -/
def serverError : Except String App.Response :=
  .ok { ok := false, statusText := "Internal Server Error",
        json := .ok (.obj [("error", .str "boom")]) }

/-- A state holding two orders and one reservation. -/
def held : App.State :=
  { App.init with orders := [orderB, orderA], reservations := [reservationA], loading := false }

end Sample

/-! ## General lemmas -/

theorem append_ne_empty (a b : String) (h : a ≠ "") : a ++ b ≠ "" := by
  intro h'
  have hlen := congrArg String.length h'
  simp [String.length_append] at hlen
  apply h
  ext1
  exact List.length_eq_zero.mp hlen.1

theorem readError_ne_empty (v : JVal) (k : String) : JVal.readError v k ≠ "" := by
  unfold JVal.readError
  simp only [String.append_assoc]
  exact append_ne_empty _ _ (by decide)

theorem get_of_not_nullish {v : JVal} (k : String) (h : v.isNullish = false) :
    v.get k = .ok (v.prop k) := by
  simp [JVal.get, h]

theorem not_nullish_of_prop_truthy {v : JVal} {k : String} (h : (v.prop k).truthy = true) :
    v.isNullish = false := by
  cases v <;> simp_all [JVal.prop, JVal.truthy, JVal.isNullish]

theorem filterE_eq_ok_filter {α ε : Type} (p : α → Except ε Bool) (q : α → Bool) :
    ∀ xs : List α, (∀ x ∈ xs, p x = .ok (q x)) → filterE p xs = .ok (xs.filter q)
  | [], _ => rfl
  | x :: xs, h => by
    have hx : p x = .ok (q x) := h x (List.mem_cons_self _ _)
    have ih := filterE_eq_ok_filter p q xs (fun y hy => h y (List.mem_cons_of_mem _ hy))
    cases hq : q x <;> simp [filterE, hx, ih, hq]

/-! ## The sort of `fetchData` -/

theorem sortNewestFirst_ok (env : Env) (f : String) (xs : List JVal)
    (h : ∀ x ∈ xs, x.isNullish = false) :
    sortNewestFirst env f xs = .ok (xs.insertionSort (notAfter env f)) := by
  unfold sortNewestFirst
  split
  · have hnone : xs.find? JVal.isNullish = none := by
      rw [List.find?_eq_none]
      intro x hx
      simp [h x hx]
    rw [hnone]
  · rename_i hlen
    match xs, hlen with
    | [], _ => rfl
    | [x], _ => rfl
    | _ :: _ :: _, hlen => simp at hlen

theorem hasDishes_not_nullish {x : JVal} (h : App.hasDishes x = true) : x.isNullish = false := by
  cases x <;> simp_all [App.hasDishes, JVal.truthy, JVal.isNullish]

theorem validTime_not_nullish {env : Env} {f : String} {x : JVal} (h : validTime env f x) :
    x.isNullish = false := by
  cases x <;> simp_all [validTime, JVal.prop, newDate, JVal.isNullish]

theorem newerEq_iff_notAfter {env : Env} {f : String} {a b : JVal}
    (ha : validTime env f a) (hb : validTime env f b) :
    newerEq env f a b ↔ notAfter env f a b := by
  unfold validTime at ha hb
  unfold newerEq notAfter compareTimes dateGe
  cases h1 : newDate env (a.prop f) <;> cases h2 : newDate env (b.prop f) <;> simp_all
  
theorem newerEq_total {env : Env} {f : String} {a b : JVal}
    (ha : validTime env f a) (hb : validTime env f b) :
    newerEq env f a b ∨ newerEq env f b a := by
  unfold validTime at ha hb
  unfold newerEq dateGe
  cases h1 : newDate env (a.prop f) <;> cases h2 : newDate env (b.prop f) <;> simp_all
  omega

theorem newerEq_trans {env : Env} {f : String} {a b c : JVal}
    (hab : newerEq env f a b) (hbc : newerEq env f b c) : newerEq env f a c := by
  unfold newerEq dateGe at *
  cases h1 : newDate env (a.prop f) <;> cases h2 : newDate env (b.prop f) <;>
    cases h3 : newDate env (c.prop f) <;> simp_all
  omega

theorem pairwise_orderedInsert (env : Env) (f : String) (a : JVal) :
    ∀ l : List JVal, (∀ x ∈ a :: l, validTime env f x) → l.Pairwise (newerEq env f) →
      (l.orderedInsert (notAfter env f) a).Pairwise (newerEq env f)
  | [], _, _ => by simp
  | b :: l, hv, hs => by
    have ha : validTime env f a := hv a (List.mem_cons_self _ _)
    have hb : validTime env f b := hv b (by simp)
    rw [List.pairwise_cons] at hs
    by_cases hab : notAfter env f a b
    · rw [List.orderedInsert, if_pos hab]
      have hab' : newerEq env f a b := (newerEq_iff_notAfter ha hb).mpr hab
      refine List.Pairwise.cons ?_ (List.Pairwise.cons hs.1 hs.2)
      intro x hx
      rcases List.mem_cons.mp hx with rfl | hx
      · exact hab'
      · exact newerEq_trans hab' (hs.1 x hx)
    · rw [List.orderedInsert, if_neg hab]
      have hba : newerEq env f b a := by
        rcases newerEq_total ha hb with h | h
        · exact absurd ((newerEq_iff_notAfter ha hb).mp h) hab
        · exact h
      have ih := pairwise_orderedInsert env f a l
        (fun x hx => hv x (by
          rcases List.mem_cons.mp hx with rfl | hx
          · simp
          · simp [hx])) hs.2
      refine List.Pairwise.cons ?_ ih
      intro x hx
      rcases (List.mem_orderedInsert (notAfter env f)).mp hx with rfl | hx
      · exact hba
      · exact hs.1 x hx

theorem pairwise_insertionSort (env : Env) (f : String) :
    ∀ l : List JVal, (∀ x ∈ l, validTime env f x) →
      (l.insertionSort (notAfter env f)).Pairwise (newerEq env f)
  | [], _ => by simp
  | a :: l, hv => by
    rw [List.insertionSort]
    apply pairwise_orderedInsert
    · intro x hx
      rcases List.mem_cons.mp hx with rfl | hx
      · exact hv _ (List.mem_cons_self _ _)
      · exact hv x (List.mem_cons_of_mem _ ((List.perm_insertionSort _ l).subset hx))
    · exact pairwise_insertionSort env f l (fun x hx => hv x (List.mem_cons_of_mem _ hx))

/-! ## The refresh cycle -/

theorem fetchData_of_error {env : Env} (st : App.State) {a b : Except String App.Response}
    {m : String} (h : App.fetchCycle env a b = .error m) :
    (App.fetchData env st a b).orders = [] ∧ (App.fetchData env st a b).reservations = [] ∧
      (App.fetchData env st a b).error = m := by
  simp [App.fetchData, h]

/-- Whenever a cycle leaves an error message, it leaves both collections empty. -/
theorem fetchData_error_set_empties (env : Env) (st : App.State)
    (a b : Except String App.Response) (h : (App.fetchData env st a b).error ≠ "") :
    (App.fetchData env st a b).orders = [] ∧ (App.fetchData env st a b).reservations = [] := by
  cases hc : App.fetchCycle env a b with
  | error m => exact ⟨(fetchData_of_error st hc).1, (fetchData_of_error st hc).2.1⟩
  | ok p => simp [App.fetchData, hc] at h

theorem fetchCycle_of_failure (env : Env) {a b : Except String App.Response}
    (h : StatusOrShapeFailure a b) : ∃ m, App.fetchCycle env a b = .error m ∧ m ≠ "" := by
  obtain ⟨o, rfl, h⟩ := h
  cases hok : o.ok
  · exact ⟨"Error fetching orders: " ++ o.statusText,
      by simp [App.fetchCycle, hok, bind, Except.bind, throw, throwThe, MonadExceptOf.throw],
      append_ne_empty _ _ (by decide)⟩
  rcases h with h | ⟨od, hod, r, rfl, h⟩
  · rw [hok] at h; cases h
  cases hrok : r.ok
  · exact ⟨"Error fetching reservations: " ++ r.statusText,
      by simp [App.fetchCycle, hok, hod, hrok, bind, Except.bind, throw, throwThe,
        MonadExceptOf.throw, pure, Except.pure], append_ne_empty _ _ (by decide)⟩
  rcases h with h | ⟨rd, hrd, h⟩
  · rw [hrok] at h; cases h
  by_cases hn : od.isNullish = true
  · exact ⟨od.readError "orders",
      by simp [App.fetchCycle, hok, hod, hrok, hrd, JVal.get, hn, bind, Except.bind, throw,
        throwThe, MonadExceptOf.throw, pure, Except.pure],
      readError_ne_empty _ _⟩
  by_cases ho : shapeOk od "orders" = true
  · have hr : shapeOk rd "reservations" = false := by
      rcases h with h | h
      · rw [ho] at h; cases h
      · exact h
    by_cases hn' : rd.isNullish = true
    · refine ⟨rd.readError "reservations", ?_, readError_ne_empty rd "reservations"⟩
      simp only [shapeOk, Bool.and_eq_true] at ho
      simp [App.fetchCycle, hok, hod, hrok, hrd, JVal.get, hn, hn', ho, bind, Except.bind, throw,
        throwThe, MonadExceptOf.throw, pure, Except.pure]
    · refine ⟨"Invalid reservations data structure received from server", ?_, by decide⟩
      simp only [shapeOk, Bool.and_eq_true] at ho
      simp only [shapeOk, Bool.and_eq_false_iff] at hr
      simp [App.fetchCycle, hok, hod, hrok, hrd, JVal.get, hn, hn', ho, hr, bind, Except.bind,
        throw, throwThe, MonadExceptOf.throw, pure, Except.pure]
  · refine ⟨"Invalid orders data structure received from server", ?_, by decide⟩
    simp only [shapeOk, Bool.and_eq_true, not_and_or, Bool.not_eq_true] at ho
    simp [App.fetchCycle, hok, hod, hrok, hrd, JVal.get, hn, ho, bind, Except.bind, throw,
      throwThe, MonadExceptOf.throw, pure, Except.pure]

theorem fetchCycle_of_success {env : Env} {a b : Except String App.Response} {od rd : JVal}
    (h : BothSucceed a b od rd)
    (hres : ∀ x ∈ (rd.prop "reservations").items, x.isNullish = false) :
    App.fetchCycle env a b = .ok
      (((od.prop "orders").items.filter App.hasDishes).insertionSort (notAfter env "orderTime"),
       (rd.prop "reservations").items.insertionSort (notAfter env "date")) := by
  obtain ⟨o, r, rfl, rfl, hok, hrok, hod, hrd, hso, hsr⟩ := h
  simp only [shapeOk, Bool.and_eq_true] at hso hsr
  have hn := not_nullish_of_prop_truthy hso.1
  have hn' := not_nullish_of_prop_truthy hsr.1
  have h1 := sortNewestFirst_ok env "orderTime" ((od.prop "orders").items.filter App.hasDishes)
    (fun x hx => hasDishes_not_nullish (List.mem_filter.mp hx).2)
  have h2 := sortNewestFirst_ok env "date" _ hres
  simp [App.fetchCycle, hok, hod, hrok, hrd, JVal.get, hn, hn', hso, hsr, h1, h2, bind,
    Except.bind, throw, throwThe, MonadExceptOf.throw, pure, Except.pure]

/-- C1: a refresh cycle in which a fetch fails by its status or by the shape check leaves
both held collections empty and a non-empty error message, whatever the state held before
and whatever the other fetch returned. -/
theorem fetchData_failure_empties_both (env : Env) (st : App.State)
    (ordersFetch reservationsFetch : Except String App.Response)
    (h : StatusOrShapeFailure ordersFetch reservationsFetch) :
    (App.fetchData env st ordersFetch reservationsFetch).orders = [] ∧
    (App.fetchData env st ordersFetch reservationsFetch).reservations = [] ∧
    (App.fetchData env st ordersFetch reservationsFetch).error ≠ "" := by
  obtain ⟨m, hm, hne⟩ := fetchCycle_of_failure env h
  obtain ⟨h1, h2, h3⟩ := fetchData_of_error st hm
  exact ⟨h1, h2, by rw [h3]; exact hne⟩

/-- The scenario of C1: the orders fetch succeeds with one order, the reservations fetch
returns a non-success status, and the state held two orders and a reservation. -/
theorem fetchData_failure_empties_both_witness :
    StatusOrShapeFailure (Sample.success (Sample.ordersBody [Sample.orderA]))
      Sample.serverError ∧
    Sample.held.orders.length = 2 ∧
    (App.fetchData Sample.env Sample.held
      (Sample.success (Sample.ordersBody [Sample.orderA])) Sample.serverError).orders = [] ∧
    (App.fetchData Sample.env Sample.held
      (Sample.success (Sample.ordersBody [Sample.orderA]))
      Sample.serverError).reservations = [] ∧
    (App.fetchData Sample.env Sample.held
      (Sample.success (Sample.ordersBody [Sample.orderA])) Sample.serverError).error ≠ "" :=
  have h : StatusOrShapeFailure (Sample.success (Sample.ordersBody [Sample.orderA]))
      Sample.serverError :=
    ⟨_, rfl, Or.inr ⟨_, rfl, _, rfl, Or.inl rfl⟩⟩
  ⟨h, rfl, fetchData_failure_empties_both Sample.env Sample.held _ _ h⟩

/-- Counterexample to C2 as stated: both fetches succeed and pass the shape check, yet a
fetched order without a `dishes` list is not held. -/
theorem fetchData_drops_order_without_dishes :
    BothSucceed (Sample.success (Sample.ordersBody [Sample.orderNoDishes]))
      (Sample.success (Sample.reservationsBody []))
      (Sample.ordersBody [Sample.orderNoDishes]) (Sample.reservationsBody []) ∧
    ¬ List.Perm
      (App.fetchData Sample.env App.init
        (Sample.success (Sample.ordersBody [Sample.orderNoDishes]))
        (Sample.success (Sample.reservationsBody []))).orders
      [Sample.orderNoDishes] := by
  refine ⟨⟨_, _, rfl, rfl, rfl, rfl, rfl, rfl, rfl, rfl⟩, ?_⟩
  have h : (App.fetchData Sample.env App.init
        (Sample.success (Sample.ordersBody [Sample.orderNoDishes]))
        (Sample.success (Sample.reservationsBody []))).orders = [] := rfl
  rw [h]
  simp

/-- C2, amended: when both fetches succeed and pass the shape check and no fetched
reservation is `null`, the held orders are a permutation of the fetched orders that carry
a `dishes` list, the held reservations are a permutation of the fetched reservations, and
the error message is cleared. -/
theorem fetchData_success_holds_permutation (env : Env) (st : App.State)
    (ordersFetch reservationsFetch : Except String App.Response) (od rd : JVal)
    (h : BothSucceed ordersFetch reservationsFetch od rd)
    (hres : ∀ x ∈ (rd.prop "reservations").items, x.isNullish = false) :
    List.Perm (App.fetchData env st ordersFetch reservationsFetch).orders
      ((od.prop "orders").items.filter App.hasDishes) ∧
    List.Perm (App.fetchData env st ordersFetch reservationsFetch).reservations
      (rd.prop "reservations").items ∧
    (App.fetchData env st ordersFetch reservationsFetch).error = "" := by
  simp only [App.fetchData, fetchCycle_of_success h hres]
  exact ⟨List.perm_insertionSort _ _, List.perm_insertionSort _ _, trivial⟩

/-- A cycle for the amended C2: three fetched orders, one of them without `dishes`, and two
fetched reservations. -/
theorem fetchData_success_holds_permutation_witness :
    BothSucceed
      (Sample.success (Sample.ordersBody [Sample.orderA, Sample.orderNoDishes, Sample.orderC]))
      (Sample.success (Sample.reservationsBody [Sample.reservationB, Sample.reservationA]))
      (Sample.ordersBody [Sample.orderA, Sample.orderNoDishes, Sample.orderC])
      (Sample.reservationsBody [Sample.reservationB, Sample.reservationA]) ∧
    List.Perm
      (App.fetchData Sample.env Sample.held
        (Sample.success (Sample.ordersBody [Sample.orderA, Sample.orderNoDishes, Sample.orderC]))
        (Sample.success
          (Sample.reservationsBody [Sample.reservationB, Sample.reservationA]))).orders
      [Sample.orderA, Sample.orderC] ∧
    List.Perm
      (App.fetchData Sample.env Sample.held
        (Sample.success (Sample.ordersBody [Sample.orderA, Sample.orderNoDishes, Sample.orderC]))
        (Sample.success
          (Sample.reservationsBody [Sample.reservationB, Sample.reservationA]))).reservations
      [Sample.reservationB, Sample.reservationA] ∧
    (App.fetchData Sample.env Sample.held
        (Sample.success (Sample.ordersBody [Sample.orderA, Sample.orderNoDishes, Sample.orderC]))
        (Sample.success
          (Sample.reservationsBody [Sample.reservationB, Sample.reservationA]))).error = "" :=
  have h : BothSucceed
      (Sample.success (Sample.ordersBody [Sample.orderA, Sample.orderNoDishes, Sample.orderC]))
      (Sample.success (Sample.reservationsBody [Sample.reservationB, Sample.reservationA]))
      (Sample.ordersBody [Sample.orderA, Sample.orderNoDishes, Sample.orderC])
      (Sample.reservationsBody [Sample.reservationB, Sample.reservationA]) :=
    ⟨_, _, rfl, rfl, rfl, rfl, rfl, rfl, rfl, rfl⟩
  ⟨h, fetchData_success_holds_permutation Sample.env Sample.held _ _ _ _ h (by decide)⟩

/-- C3: when both fetches succeed and pass the shape check and every record's timestamp is
read as a valid instant, the held orders are in non-increasing order of `orderTime` and the
held reservations in non-increasing order of `date`: each held record is at least as recent
as every later one, in particular as the next one. -/
theorem fetchData_success_sorted_newest_first (env : Env) (st : App.State)
    (ordersFetch reservationsFetch : Except String App.Response) (od rd : JVal)
    (h : BothSucceed ordersFetch reservationsFetch od rd)
    (hvo : ∀ x ∈ (od.prop "orders").items,
      App.hasDishes x = true → validTime env "orderTime" x)
    (hvr : ∀ x ∈ (rd.prop "reservations").items, validTime env "date" x) :
    List.Pairwise (newerEq env "orderTime")
      (App.fetchData env st ordersFetch reservationsFetch).orders ∧
    List.Chain' (newerEq env "orderTime")
      (App.fetchData env st ordersFetch reservationsFetch).orders ∧
    List.Pairwise (newerEq env "date")
      (App.fetchData env st ordersFetch reservationsFetch).reservations ∧
    List.Chain' (newerEq env "date")
      (App.fetchData env st ordersFetch reservationsFetch).reservations := by
  have hres : ∀ x ∈ (rd.prop "reservations").items, x.isNullish = false :=
    fun x hx => validTime_not_nullish (hvr x hx)
  simp only [App.fetchData, fetchCycle_of_success h hres]
  have ho := pairwise_insertionSort env "orderTime"
    ((od.prop "orders").items.filter App.hasDishes)
    (fun x hx => hvo x (List.mem_filter.mp hx).1 (List.mem_filter.mp hx).2)
  have hr := pairwise_insertionSort env "date" _ hvr
  exact ⟨ho, ho.chain', hr, hr.chain'⟩

/-- A cycle for C3: orders fetched oldest first and reservations fetched oldest first are
held newest first. -/
theorem fetchData_success_sorted_newest_first_witness :
    (App.fetchData Sample.env Sample.held
      (Sample.success (Sample.ordersBody [Sample.orderA, Sample.orderB, Sample.orderC]))
      (Sample.success
        (Sample.reservationsBody [Sample.reservationB, Sample.reservationA]))).orders.map
        (fun o => newDate Sample.env (o.prop "orderTime"))
      = [some 1711883000000, some 1711880000000, some 1711700000000] ∧
    List.Pairwise (newerEq Sample.env "orderTime")
      (App.fetchData Sample.env Sample.held
        (Sample.success (Sample.ordersBody [Sample.orderA, Sample.orderB, Sample.orderC]))
        (Sample.success
          (Sample.reservationsBody [Sample.reservationB, Sample.reservationA]))).orders ∧
    List.Pairwise (newerEq Sample.env "date")
      (App.fetchData Sample.env Sample.held
        (Sample.success (Sample.ordersBody [Sample.orderA, Sample.orderB, Sample.orderC]))
        (Sample.success
          (Sample.reservationsBody [Sample.reservationB, Sample.reservationA]))).reservations :=
  have h := fetchData_success_sorted_newest_first Sample.env Sample.held
    (Sample.success (Sample.ordersBody [Sample.orderA, Sample.orderB, Sample.orderC]))
    (Sample.success (Sample.reservationsBody [Sample.reservationB, Sample.reservationA]))
    (Sample.ordersBody [Sample.orderA, Sample.orderB, Sample.orderC])
    (Sample.reservationsBody [Sample.reservationB, Sample.reservationA])
    ⟨_, _, rfl, rfl, rfl, rfl, rfl, rfl, rfl, rfl⟩
    (by decide) (by decide)
  ⟨by decide, h.1, h.2.2.1⟩

/-! ## Marking an order delivered -/

theorem lookup_setField_self (k : String) (v : JVal) :
    ∀ fs : List (String × JVal), (App.setField k v fs).lookup k = some v
  | [] => by simp [App.setField, List.lookup]
  | (k', v') :: fs => by
    by_cases h : k' = k
    · simp [App.setField, h, List.lookup]
    · have h' : (k == k') = false := by simpa using fun e : k = k' => h e.symm
      simp [App.setField, h, List.lookup, h', lookup_setField_self k v fs]

theorem lookup_setField_ne (k : String) (v : JVal) {j : String} (hj : j ≠ k) :
    ∀ fs : List (String × JVal), (App.setField k v fs).lookup j = fs.lookup j
  | [] => by
    have h' : (j == k) = false := by simpa using hj
    simp [App.setField, List.lookup, h']
  | (k', v') :: fs => by
    by_cases h : k' = k
    · subst h
      have h' : (j == k') = false := by simpa using hj
      simp [App.setField, List.lookup, h']
    · cases hjk : j == k' <;>
        simp [App.setField, h, List.lookup, hjk, lookup_setField_ne k v hj fs]

theorem sortNewestFirst_mem {env : Env} {f : String} {xs out : List JVal}
    (h : sortNewestFirst env f xs = .ok out) : ∀ x ∈ out, x ∈ xs := by
  unfold sortNewestFirst at h
  split at h
  · split at h
    · cases h
    · cases h
      exact fun x hx => (List.perm_insertionSort _ xs).subset hx
  · cases h
    exact fun x hx => hx

theorem hasDishes_isObj {x : JVal} (h : App.hasDishes x = true) : x.isObj = true := by
  cases x <;> simp_all [App.hasDishes, JVal.truthy, JVal.isObj, JVal.prop]

/-- Every order held after a refresh cycle is an object that carries a `dishes` array. -/
theorem fetchData_orders_hasDishes (env : Env) (st : App.State)
    (a b : Except String App.Response) :
    ∀ o ∈ (App.fetchData env st a b).orders, App.hasDishes o = true := by
  unfold App.fetchData
  split
  · rename_i os rs h
    intro o ho
    simp only at ho
    simp only [App.fetchCycle, bind, Except.bind, throw, throwThe, MonadExceptOf.throw, pure,
      Except.pure] at h
    repeat' split at h
    all_goals try cases h
    rename_i h1 _
    exact (List.mem_filter.mp (sortNewestFirst_mem h1 o ho)).2
  · intro o ho
    cases ho

theorem markDelivered_spec (orderId : App.Ident) {o : JVal} (ho : o.isObj = true) :
    (App.strictEq (o.prop "_id") orderId = true →
      (App.markDelivered orderId o).isObj = true ∧
      (App.markDelivered orderId o).prop "isDelivered" = .bool true ∧
      ∀ k, k ≠ "isDelivered" → (App.markDelivered orderId o).prop k = o.prop k) ∧
    (App.strictEq (o.prop "_id") orderId = false → App.markDelivered orderId o = o) := by
  cases o <;> simp [JVal.isObj] at ho
  rename_i fs
  constructor
  · intro h
    have hm : App.markDelivered orderId (.obj fs) =
        .obj (App.setField "isDelivered" (.bool true) fs) := by
      simp [App.markDelivered, JVal.truthy, h, App.ownProps]
    rw [hm]
    refine ⟨rfl, ?_, ?_⟩
    · simp [JVal.prop, lookup_setField_self]
    · intro k hk
      simp [JVal.prop, lookup_setField_ne "isDelivered" _ hk]
  · intro h
    simp [App.markDelivered, h]

theorem truthy_of_isObj {x : JVal} (h : x.isObj = true) : x.truthy = true := by
  cases x <;> simp_all [JVal.isObj, JVal.truthy]

theorem markDelivered_hasDishes (orderId : App.Ident) {o : JVal}
    (h : App.hasDishes o = true) : App.hasDishes (App.markDelivered orderId o) = true := by
  have hs := markDelivered_spec orderId (hasDishes_isObj h)
  cases hid : App.strictEq (o.prop "_id") orderId
  · rw [hs.2 hid]; exact h
  · obtain ⟨ho, -, hk⟩ := hs.1 hid
    have hd := hk "dishes" (by decide)
    unfold App.hasDishes at h ⊢
    rw [hd, truthy_of_isObj ho]
    rw [truthy_of_isObj (hasDishes_isObj (by unfold App.hasDishes; exact h))] at h
    exact h

/-- C4: when the mark-delivered call for `orderId` succeeds, the held orders keep their
number and order; every order whose `_id` equals `orderId` has `isDelivered` true and every
other field as before; every other order is unchanged; and the reservations and the error
message are unchanged. -/
theorem handleMarkAsDelivered_success_patches_order (env : Env) (st : App.State)
    (orderId : App.Ident) (response : App.Response) (hok : response.ok = true)
    (hobj : ∀ o ∈ st.orders, o.isObj = true) :
    (App.handleMarkAsDelivered env st orderId (.ok response)).orders.length = st.orders.length ∧
    List.Forall₂
      (fun o o' =>
        (App.strictEq (o.prop "_id") orderId = true →
          o'.isObj = true ∧ o'.prop "isDelivered" = .bool true ∧
          ∀ k, k ≠ "isDelivered" → o'.prop k = o.prop k) ∧
        (App.strictEq (o.prop "_id") orderId = false → o' = o))
      st.orders (App.handleMarkAsDelivered env st orderId (.ok response)).orders ∧
    (App.handleMarkAsDelivered env st orderId (.ok response)).reservations = st.reservations ∧
    (App.handleMarkAsDelivered env st orderId (.ok response)).error = st.error := by
  have hst : App.handleMarkAsDelivered env st orderId (.ok response) =
      { st with orders := st.orders.map (App.markDelivered orderId) } := by
    simp [App.handleMarkAsDelivered, hok, bind, Except.bind, pure, Except.pure]
  rw [hst]
  refine ⟨by simp, ?_, rfl, rfl⟩
  simp only
  rw [List.forall₂_map_right_iff, List.forall₂_same]
  exact fun o ho => markDelivered_spec orderId (hobj o ho)

/-- The scenario of C4: order `a` of the held collection is marked delivered. -/
theorem handleMarkAsDelivered_success_patches_order_witness :
    (App.handleMarkAsDelivered Sample.env Sample.held (.str "a")
      (.ok ⟨true, "OK", .ok (.obj [])⟩)).orders.map (fun o => (o.prop "isDelivered").truthy)
      = [false, true] ∧
    List.Forall₂
      (fun o o' =>
        (App.strictEq (o.prop "_id") (.str "a") = true →
          o'.isObj = true ∧ o'.prop "isDelivered" = .bool true ∧
          ∀ k, k ≠ "isDelivered" → o'.prop k = o.prop k) ∧
        (App.strictEq (o.prop "_id") (.str "a") = false → o' = o))
      Sample.held.orders
      (App.handleMarkAsDelivered Sample.env Sample.held (.str "a")
        (.ok ⟨true, "OK", .ok (.obj [])⟩)).orders :=
  ⟨by decide,
   (handleMarkAsDelivered_success_patches_order Sample.env Sample.held (.str "a")
      ⟨true, "OK", .ok (.obj [])⟩ rfl (by decide)).2.1⟩

/-! ## The record filters -/

theorem inWindow_ok (env : Env) (f : String) (c : Option DateObj) {r : JVal}
    (h : r.isNullish = false) : App.inWindow env f c r = .ok (keptByDate env f c r) := by
  simp [App.inWindow, JVal.get, h, keptByDate, bind, Except.bind, pure, Except.pure]

theorem isTapCollect_ok {o : JVal} (h : o.isNullish = false) :
    App.isTapCollect o = .ok (tapCollectLike o) := by
  simp [App.isTapCollect, JVal.get, h, tapCollectLike, bind, Except.bind, pure, Except.pure]

theorem isDelivery_ok {o : JVal} (h : o.isNullish = false) :
    App.isDelivery o = .ok (deliveryLike o) := by
  simp [App.isDelivery, JVal.get, h, deliveryLike, bind, Except.bind, pure, Except.pure]

/-- The records kept by the date stage under the selection `sel`. -/
theorem dateStage_ok (env : Env) (sel : String) {rs : List JVal}
    (h : ∀ r ∈ rs, r.isNullish = false) :
    App.dateStage env sel rs = .ok
      (if sel = "all" then rs
       else rs.filter (keptByDate env "orderTime" (App.getDateRange env sel))) := by
  unfold App.dateStage
  by_cases hs : sel = "all"
  · simp [hs]
  · simp only [ne_eq, hs, not_false_eq_true, if_true, if_false]
    exact filterE_eq_ok_filter _ _ rs (fun r hr => inWindow_ok env _ _ (h r hr))

theorem filterReservationsByDate_ok (env : Env) (sel : String) {rs : List JVal}
    (h : ∀ r ∈ rs, r.isNullish = false) :
    App.filterReservationsByDate env rs sel = .ok
      (if sel = "all" then rs
       else rs.filter (keptByDate env "date" (App.getDateRange env sel))) := by
  unfold App.filterReservationsByDate
  by_cases hs : sel = "all"
  · simp [hs]
  · simp only [hs, if_false]
    exact filterE_eq_ok_filter _ _ rs (fun r hr => inWindow_ok env _ _ (h r hr))

/-- The test applied by the menu-option stage under `menuOption`. -/
theorem typeStage_ok (menuOption : String) {rs : List JVal}
    (h : ∀ r ∈ rs, r.isNullish = false) :
    App.typeStage menuOption rs = .ok
      (if menuOption = "Tap & Collect" then rs.filter tapCollectLike
       else if menuOption = "Delivery Orders" then rs.filter deliveryLike else rs) := by
  unfold App.typeStage
  split
  · exact filterE_eq_ok_filter _ _ rs (fun r hr => isTapCollect_ok (h r hr))
  · split
    · exact filterE_eq_ok_filter _ _ rs (fun r hr => isDelivery_ok (h r hr))
    · rfl

theorem filterByDate_sublist (env : Env) (sel : String) (rs : List JVal) (f : String) :
    (VisualData.filterByDate env sel rs f).Sublist rs := by
  unfold VisualData.filterByDate
  repeat' split
  all_goals first | exact List.filter_sublist _ | exact List.Sublist.refl _

theorem filterByDate_of_not_chart (env : Env) {sel : String} (rs : List JVal) (f : String)
    (h : sel ∉ chartSelections) : VisualData.filterByDate env sel rs f = rs := by
  simp only [chartSelections, List.mem_cons, List.mem_singleton, List.not_mem_nil, or_false,
    not_or] at h
  simp [VisualData.filterByDate, h]

/-- C5: each date filter returns a subsequence of its input, in the input's relative order,
under every selection, and the input itself under the selection `"all"`. The two filters of
`App.js` read a field of each record, which requires the records not to be `null`. -/
theorem date_filters_return_ordered_subsequence (env : Env) (sel : String) (rs : List JVal) :
    ((∀ r ∈ rs, r.isNullish = false) →
      ∃ out, App.filterReservationsByDate env rs sel = .ok out ∧ out.Sublist rs) ∧
    (sel = "all" → App.filterReservationsByDate env rs sel = .ok rs) ∧
    ((∀ r ∈ rs, r.isNullish = false) →
      ∃ out, App.dateStage env sel rs = .ok out ∧ out.Sublist rs) ∧
    (sel = "all" → App.dateStage env sel rs = .ok rs) ∧
    (∀ f, (VisualData.filterByDate env sel rs f).Sublist rs) ∧
    (∀ f, sel = "all" → VisualData.filterByDate env sel rs f = rs) := by
  refine ⟨fun h => ⟨_, filterReservationsByDate_ok env sel h, ?_⟩, ?_,
    fun h => ⟨_, dateStage_ok env sel h, ?_⟩, ?_, filterByDate_sublist env sel rs, ?_⟩
  · split
    · exact List.Sublist.refl _
    · exact List.filter_sublist _
  · intro hs; simp [App.filterReservationsByDate, hs]
  · split
    · exact List.Sublist.refl _
    · exact List.filter_sublist _
  · intro hs; simp [App.dateStage, hs]
  · intro f hs
    exact filterByDate_of_not_chart env rs f (by rw [hs]; decide)

/-- An instance of C5: three orders under the selection `"1day"`, and under `"all"`. -/
theorem date_filters_return_ordered_subsequence_witness :
    (∀ r ∈ [Sample.orderA, Sample.orderNoTime, Sample.orderB], r.isNullish = false) ∧
    App.dateStage Sample.env "1day" [Sample.orderA, Sample.orderNoTime, Sample.orderB]
      = .ok [Sample.orderB] ∧
    (∃ out, App.dateStage Sample.env "1day" [Sample.orderA, Sample.orderNoTime, Sample.orderB]
      = .ok out ∧ out.Sublist [Sample.orderA, Sample.orderNoTime, Sample.orderB]) ∧
    App.dateStage Sample.env "all" [Sample.orderA, Sample.orderNoTime, Sample.orderB]
      = .ok [Sample.orderA, Sample.orderNoTime, Sample.orderB] :=
  ⟨by decide, rfl,
   (date_filters_return_ordered_subsequence Sample.env "1day"
      [Sample.orderA, Sample.orderNoTime, Sample.orderB]).2.2.1 (by decide),
   (date_filters_return_ordered_subsequence Sample.env "all"
      [Sample.orderA, Sample.orderNoTime, Sample.orderB]).2.2.2.1 rfl⟩

theorem not_nullish_of_sublist {xs ys : List JVal} (hs : ys.Sublist xs)
    (h : ∀ r ∈ xs, r.isNullish = false) : ∀ r ∈ ys, r.isNullish = false :=
  fun r hr => h r (hs.subset hr)

theorem filter_filter_comm (p q : JVal → Bool) (xs : List JVal) :
    (xs.filter p).filter q = (xs.filter q).filter p := by
  simp only [List.filter_filter]
  congr 1
  funext x
  exact Bool.and_comm _ _

/-- C6: on held orders (none of them `null`), the category filter followed by the time
filter and the time filter followed by the category filter return the same sequence, which
is the result of `filterOrdersByTypeAndDate`. -/
theorem category_and_time_filters_commute (env : Env) (sel menuOption : String)
    (orders : List JVal) (h : ∀ o ∈ orders, o.isNullish = false) :
    ∃ out, App.filterOrdersByTypeAndDate env orders sel menuOption = .ok out ∧
      (App.typeStage menuOption orders).bind (App.dateStage env sel) = .ok out ∧
      (App.dateStage env sel orders).bind (App.typeStage menuOption) = .ok out := by
  have hd := dateStage_ok env sel h
  have ht := typeStage_ok menuOption h
  have hdn : ∀ r ∈ (if sel = "all" then orders
      else orders.filter (keptByDate env "orderTime" (App.getDateRange env sel))),
      r.isNullish = false := by
    split
    · exact h
    · exact not_nullish_of_sublist (List.filter_sublist _) h
  have htn : ∀ r ∈ (if menuOption = "Tap & Collect" then orders.filter tapCollectLike
      else if menuOption = "Delivery Orders" then orders.filter deliveryLike else orders),
      r.isNullish = false := by
    split
    · exact not_nullish_of_sublist (List.filter_sublist _) h
    · split
      · exact not_nullish_of_sublist (List.filter_sublist _) h
      · exact h
  refine Exists.intro
    (if menuOption = "Tap & Collect" then
      (if sel = "all" then orders
        else orders.filter (keptByDate env "orderTime" (App.getDateRange env sel))).filter
        tapCollectLike
     else if menuOption = "Delivery Orders" then
      (if sel = "all" then orders
        else orders.filter (keptByDate env "orderTime" (App.getDateRange env sel))).filter
        deliveryLike
     else (if sel = "all" then orders
        else orders.filter (keptByDate env "orderTime" (App.getDateRange env sel))))
    (And.intro ?_ (And.intro ?_ ?_))
  · show (App.dateStage env sel orders).bind (App.typeStage menuOption) = _
    rw [hd]
    exact typeStage_ok menuOption hdn
  · rw [ht]
    show App.dateStage env sel _ = _
    rw [dateStage_ok env sel htn]
    congr 1
    by_cases hs : sel = "all" <;> by_cases h1 : menuOption = "Tap & Collect" <;>
      by_cases h2 : menuOption = "Delivery Orders" <;>
      simp only [hs, h1, h2, if_true, if_false] <;> first | rfl | exact filter_filter_comm _ _ _
  · rw [hd]
    exact typeStage_ok menuOption hdn

/-- An instance of C6: four orders, the last day, the delivery view. -/
theorem category_and_time_filters_commute_witness :
    (∀ o ∈ [Sample.orderA, Sample.orderB, Sample.orderNoTime, Sample.orderC],
      o.isNullish = false) ∧
    App.filterOrdersByTypeAndDate Sample.env
      [Sample.orderA, Sample.orderB, Sample.orderNoTime, Sample.orderC] "1day" "Delivery Orders"
      = .ok [Sample.orderC] ∧
    ∃ out, App.filterOrdersByTypeAndDate Sample.env
        [Sample.orderA, Sample.orderB, Sample.orderNoTime, Sample.orderC] "1day"
        "Delivery Orders" = .ok out ∧
      (App.typeStage "Delivery Orders"
        [Sample.orderA, Sample.orderB, Sample.orderNoTime, Sample.orderC]).bind
        (App.dateStage Sample.env "1day") = .ok out ∧
      (App.dateStage Sample.env "1day"
        [Sample.orderA, Sample.orderB, Sample.orderNoTime, Sample.orderC]).bind
        (App.typeStage "Delivery Orders") = .ok out :=
  ⟨by decide, rfl,
   category_and_time_filters_commute Sample.env "1day" "Delivery Orders"
     [Sample.orderA, Sample.orderB, Sample.orderNoTime, Sample.orderC] (by decide)⟩

theorem getDateRange_of_unrecognised (env : Env) {sel : String} (h : sel ∉ appSelections) :
    App.getDateRange env sel = none := by
  simp only [appSelections, List.mem_cons, List.mem_singleton, List.not_mem_nil, or_false,
    not_or] at h
  unfold App.getDateRange
  split <;> simp_all

theorem keptByDate_none_iff (env : Env) (f : String) (r : JVal) :
    keptByDate env f none r = true ↔
      (r.prop f).truthy = true ∧ ∃ t, newDate env (r.prop f) = some t ∧ 0 ≤ t := by
  unfold keptByDate geCutoff dateGe
  cases newDate env (r.prop f) <;> simp

theorem isPendingDelivery_ok (env : Env) (sel : String) {o : JVal} (h : o.isNullish = false) :
    App.isPendingDelivery env sel o = .ok (deliveryLike o && !(o.prop "isDelivered").truthy &&
      (sel == "all" || keptByDate env "orderTime" (App.getDateRange env sel) o)) := by
  simp [App.isPendingDelivery, JVal.get, h, deliveryLike, keptByDate, bind, Except.bind, pure,
    Except.pure]

theorem isPendingPickup_ok (env : Env) (sel : String) {o : JVal} (h : o.isNullish = false) :
    App.isPendingPickup env sel o = .ok (tapCollectLike o && !(o.prop "isDelivered").truthy &&
      (sel == "all" || keptByDate env "orderTime" (App.getDateRange env sel) o)) := by
  simp [App.isPendingPickup, JVal.get, h, tapCollectLike, keptByDate, bind, Except.bind, pure,
    Except.pure]

theorem isUpcoming_ok (env : Env) (sel : String) {r : JVal} (h : r.isNullish = false) :
    App.isUpcoming env sel r = .ok (dateGe (newDate env (r.prop "date")) (some env.now) &&
      (sel == "all" || geCutoff (newDate env (r.prop "date")) (App.getDateRange env sel))) := by
  simp [App.isUpcoming, JVal.get, h, bind, Except.bind, pure, Except.pure]

theorem pendingDeliveryCount_ok (env : Env) (sel : String) {rs : List JVal}
    (h : ∀ r ∈ rs, r.isNullish = false) :
    App.pendingDeliveryCount env rs sel = .ok
      (rs.countP (fun o => deliveryLike o && !(o.prop "isDelivered").truthy &&
        (sel == "all" || keptByDate env "orderTime" (App.getDateRange env sel) o))) := by
  unfold App.pendingDeliveryCount
  rw [filterE_eq_ok_filter _ _ rs (fun r hr => isPendingDelivery_ok env sel (h r hr))]
  simp [Except.map, List.countP_eq_length_filter]

theorem pendingPickupCount_ok (env : Env) (sel : String) {rs : List JVal}
    (h : ∀ r ∈ rs, r.isNullish = false) :
    App.pendingPickupCount env rs sel = .ok
      (rs.countP (fun o => tapCollectLike o && !(o.prop "isDelivered").truthy &&
        (sel == "all" || keptByDate env "orderTime" (App.getDateRange env sel) o))) := by
  unfold App.pendingPickupCount
  rw [filterE_eq_ok_filter _ _ rs (fun r hr => isPendingPickup_ok env sel (h r hr))]
  simp [Except.map, List.countP_eq_length_filter]

theorem upcomingReservationsCount_ok (env : Env) (sel : String) {rs : List JVal}
    (h : ∀ r ∈ rs, r.isNullish = false) :
    App.upcomingReservationsCount env rs sel = .ok
      (rs.countP (fun r => dateGe (newDate env (r.prop "date")) (some env.now) &&
        (sel == "all" || geCutoff (newDate env (r.prop "date")) (App.getDateRange env sel)))) := by
  unfold App.upcomingReservationsCount
  rw [filterE_eq_ok_filter _ _ rs (fun r hr => isUpcoming_ok env sel (h r hr))]
  simp [Except.map, List.countP_eq_length_filter]

/-- C7, at its failing input: `"2days"` is not one of the recognised selections and
`getDateRange` yields no lower bound (`null`) for it, as for `"all"`; yet the filters and
counts of `App.js`, gated on `dateFilter !== "all"`, run their date test against that `null`
and drop a record that has no timestamp, which they keep under `"all"` and which the
sibling `filterByDate` of `VisualData.js` keeps under the same unrecognised selection. -/
theorem unrecognised_selection_drops_untimed_record :
    "2days" ∉ appSelections ∧
    App.getDateRange Sample.env "2days" = none ∧
    App.getDateRange Sample.env "all" = none ∧
    App.filterReservationsByDate Sample.env [Sample.reservationNoDate] "2days" = .ok [] ∧
    App.filterReservationsByDate Sample.env [Sample.reservationNoDate] "all"
      = .ok [Sample.reservationNoDate] ∧
    App.dateStage Sample.env "2days" [Sample.orderNoTime] = .ok [] ∧
    App.dateStage Sample.env "all" [Sample.orderNoTime] = .ok [Sample.orderNoTime] ∧
    App.filterOrdersByTypeAndDate Sample.env [Sample.orderNoTime] "2days" "Delivery Orders"
      = .ok [] ∧
    App.filterOrdersByTypeAndDate Sample.env [Sample.orderNoTime] "all" "Delivery Orders"
      = .ok [Sample.orderNoTime] ∧
    App.pendingDeliveryCount Sample.env [Sample.orderNoTime] "2days" = .ok 0 ∧
    App.pendingDeliveryCount Sample.env [Sample.orderNoTime] "all" = .ok 1 ∧
    VisualData.filterByDate Sample.env "2days" [Sample.orderNoTime] "orderTime"
      = [Sample.orderNoTime] :=
  ⟨by decide, rfl, rfl, rfl, rfl, rfl, rfl, rfl, rfl, rfl, rfl, rfl⟩

/-- What the date test of `App.js` computes under a selection outside the six options:
`getDateRange` yields `null`, the comparison reads it as the epoch, and a record passes
when its timestamp is truthy and is read as an instant at or after the epoch. -/
theorem date_test_against_null_cutoff (env : Env) (sel : String) (rs : List JVal)
    (hsel : sel ∉ appSelections) (hrec : ∀ r ∈ rs, r.isNullish = false) :
    App.getDateRange env sel = none ∧
    App.filterReservationsByDate env rs sel = .ok (rs.filter (keptByDate env "date" none)) ∧
    App.dateStage env sel rs = .ok (rs.filter (keptByDate env "orderTime" none)) ∧
    App.pendingDeliveryCount env rs sel = .ok
      (rs.countP (fun o => deliveryLike o && !(o.prop "isDelivered").truthy &&
        keptByDate env "orderTime" none o)) ∧
    App.pendingPickupCount env rs sel = .ok
      (rs.countP (fun o => tapCollectLike o && !(o.prop "isDelivered").truthy &&
        keptByDate env "orderTime" none o)) ∧
    App.upcomingReservationsCount env rs sel = .ok
      (rs.countP (fun r => dateGe (newDate env (r.prop "date")) (some env.now) &&
        dateGe (newDate env (r.prop "date")) (some 0))) ∧
    (∀ f r, keptByDate env f none r = true ↔
      (r.prop f).truthy = true ∧ ∃ t, newDate env (r.prop f) = some t ∧ 0 ≤ t) := by
  have hnone := getDateRange_of_unrecognised env hsel
  have hne : sel ≠ "all" := by
    intro h; apply hsel; rw [h]; decide
  have hbeq : (sel == "all") = false := by simpa using hne
  refine ⟨hnone, ?_, ?_, ?_, ?_, ?_, keptByDate_none_iff env⟩
  · rw [filterReservationsByDate_ok env sel hrec, if_neg hne, hnone]
  · rw [dateStage_ok env sel hrec, if_neg hne, hnone]
  · rw [pendingDeliveryCount_ok env sel hrec, hnone, hbeq]; simp
  · rw [pendingPickupCount_ok env sel hrec, hnone, hbeq]; simp
  · rw [upcomingReservationsCount_ok env sel hrec, hnone, hbeq]; simp [geCutoff]

theorem toDateString_ne_invalid (env : Env) (t : Int) :
    toDateString env (some t) ≠ "Invalid Date" := by
  intro h
  have hd := congrArg String.data h
  simp only [toDateString, String.data_append] at hd
  generalize ((day (t + env.tza) + 4) % 7).toNat = n at hd
  have hhead := congrArg List.head? hd
  rcases n with _ | _ | _ | _ | _ | _ | _ | n <;>
    simp [weekDayNames, List.getD] at hhead

theorem isToday_false_of_lacksTime (env : Env) (f : String) {r : JVal}
    (h : lacksTime env f r) : VisualData.isToday env f r = false := by
  unfold VisualData.isToday
  rcases h with h | h
  · simp [h]
  · rw [h]
    have hne := toDateString_ne_invalid env env.now
    have : (toDateString env none == toDateString env (some env.now)) = false := by
      simpa [toDateString] using fun e : "Invalid Date" = toDateString env (some env.now) =>
        hne e.symm
    simp [this]
theorem keptByDate_false_of_lacksTime (env : Env) (f : String) (c : Option DateObj) {r : JVal}
    (h : lacksTime env f r) : keptByDate env f c r = false := by
  unfold keptByDate
  rcases h with h | h
  · simp [h]
  · rw [h]
    cases c <;> simp [geCutoff, dateGe]

theorem sinceCutoff_false_of_lacksTime (env : Env) (f : String) (c : DateObj) {r : JVal}
    (h : lacksTime env f r) : VisualData.sinceCutoff env f c r = false := by
  unfold VisualData.sinceCutoff
  rcases h with h | h
  · simp [h]
  · rw [h]
    simp [dateGe]

theorem not_mem_filterByDate_of_lacksTime (env : Env) {sel : String} (rs : List JVal)
    (f : String) (hsel : sel ∈ chartSelections) {r : JVal} (h : lacksTime env f r) :
    r ∉ VisualData.filterByDate env sel rs f := by
  simp only [chartSelections, List.mem_cons, List.mem_singleton, List.not_mem_nil,
    or_false] at hsel
  intro hmem
  unfold VisualData.filterByDate at hmem
  rcases hsel with hs | hs | hs | hs <;> subst hs <;>
    simp [List.mem_filter, isToday_false_of_lacksTime env f h,
      sinceCutoff_false_of_lacksTime env f _ h] at hmem

/-- C8: a record whose timestamp field is missing, or does not read as a valid instant, is
absent from the output of every date filter whenever the filter applies its date test (in
`App.js` under every selection other than `"all"`, in `VisualData.js` under its four
selections), and every record is present when no date test applies (`"all"` in `App.js`,
any other selection in `VisualData.js`). -/
theorem untimed_records_excluded_iff_date_test (env : Env) (sel : String) (rs : List JVal) :
    ((∀ r ∈ rs, r.isNullish = false) → sel ≠ "all" →
      ∃ out, App.filterReservationsByDate env rs sel = .ok out ∧
        ∀ r, lacksTime env "date" r → r ∉ out) ∧
    (sel = "all" →
      ∃ out, App.filterReservationsByDate env rs sel = .ok out ∧ ∀ r ∈ rs, r ∈ out) ∧
    ((∀ r ∈ rs, r.isNullish = false) → sel ≠ "all" →
      ∃ out, App.dateStage env sel rs = .ok out ∧
        ∀ r, lacksTime env "orderTime" r → r ∉ out) ∧
    (sel = "all" → ∃ out, App.dateStage env sel rs = .ok out ∧ ∀ r ∈ rs, r ∈ out) ∧
    (∀ f, sel ∈ chartSelections →
      ∀ r, lacksTime env f r → r ∉ VisualData.filterByDate env sel rs f) ∧
    (∀ f, sel ∉ chartSelections →
      ∀ r ∈ rs, r ∈ VisualData.filterByDate env sel rs f) := by
  refine ⟨?_, ?_, ?_, ?_, ?_, ?_⟩
  · intro hrec hs
    refine ⟨_, filterReservationsByDate_ok env sel hrec, ?_⟩
    intro r hr hmem
    rw [if_neg hs, List.mem_filter, keptByDate_false_of_lacksTime env _ _ hr] at hmem
    exact Bool.false_ne_true hmem.2
  · intro hs
    exact ⟨rs, by simp [App.filterReservationsByDate, hs], fun r hr => hr⟩
  · intro hrec hs
    refine ⟨_, dateStage_ok env sel hrec, ?_⟩
    intro r hr hmem
    rw [if_neg hs, List.mem_filter, keptByDate_false_of_lacksTime env _ _ hr] at hmem
    exact Bool.false_ne_true hmem.2
  · intro hs
    exact ⟨rs, by simp [App.dateStage, hs], fun r hr => hr⟩
  · intro f hs r hr
    exact not_mem_filterByDate_of_lacksTime env rs f hs hr
  · intro f hs r hr
    rw [filterByDate_of_not_chart env rs f hs]
    exact hr

/-- An instance of C8: a reservation without a date is dropped under `"1week"` and kept
under `"all"`. -/
theorem untimed_records_excluded_iff_date_test_witness :
    lacksTime Sample.env "date" Sample.reservationNoDate ∧
    App.filterReservationsByDate Sample.env [Sample.reservationA, Sample.reservationNoDate]
      "1week" = .ok [Sample.reservationA] ∧
    (∃ out, App.filterReservationsByDate Sample.env
        [Sample.reservationA, Sample.reservationNoDate] "1week" = .ok out ∧
      ∀ r, lacksTime Sample.env "date" r → r ∉ out) ∧
    (∃ out, App.filterReservationsByDate Sample.env
        [Sample.reservationA, Sample.reservationNoDate] "all" = .ok out ∧
      ∀ r ∈ [Sample.reservationA, Sample.reservationNoDate], r ∈ out) :=
  ⟨Or.inl rfl, rfl,
   (untimed_records_excluded_iff_date_test Sample.env "1week"
      [Sample.reservationA, Sample.reservationNoDate]).1 (by decide) (by decide),
   (untimed_records_excluded_iff_date_test Sample.env "all"
      [Sample.reservationA, Sample.reservationNoDate]).2.1 rfl⟩

/-! ## The daily histogram -/

theorem grouped_eq_foldl_bump (env : Env) (f : String) :
    ∀ (data : List JVal) (acc : List (String × Nat)),
      data.foldl (VisualData.countByDate env f) acc
        = (renderedDates env data f).foldl VisualData.bump acc
  | [], _ => rfl
  | r :: data, acc => by
    cases h : (r.prop f).truthy
    · simp [renderedDates, VisualData.countByDate, h]
      exact grouped_eq_foldl_bump env f data acc
    · simp [renderedDates, VisualData.countByDate, h]
      exact grouped_eq_foldl_bump env f data _

theorem keys_bump (k : String) :
    ∀ acc : List (String × Nat),
      (VisualData.bump acc k).map Prod.fst
        = if k ∈ acc.map Prod.fst then acc.map Prod.fst else acc.map Prod.fst ++ [k]
  | [] => by simp [VisualData.bump]
  | (k', n) :: rest => by
    by_cases h : k' = k
    · simp [VisualData.bump, h]
    · have h' : ¬ k = k' := fun e => h e.symm
      simp only [VisualData.bump, h, if_false, List.map_cons, keys_bump k rest, List.mem_cons,
        h', false_or]
      split <;> simp

theorem mem_bump (k : String) (p : String × Nat) :
    ∀ acc : List (String × Nat), (acc.map Prod.fst).Nodup → p ∈ VisualData.bump acc k →
      (p ∈ acc ∧ p.1 ≠ k) ∨ (∃ n, p = (k, n + 1) ∧ (k, n) ∈ acc) ∨
        (p = (k, 1) ∧ k ∉ acc.map Prod.fst)
  | [], _, hp => by
    simp [VisualData.bump] at hp
    exact Or.inr (Or.inr ⟨hp, by simp⟩)
  | (k', n') :: rest, hnd, hp => by
    rw [List.map_cons, List.nodup_cons] at hnd
    by_cases h : k' = k
    · subst h
      simp only [VisualData.bump, if_true, List.mem_cons] at hp
      rcases hp with hp | hp
      · exact Or.inr (Or.inl ⟨n', hp, by simp⟩)
      · refine Or.inl ⟨List.mem_cons_of_mem _ hp, ?_⟩
        intro e
        have hm : p.1 ∈ rest.map Prod.fst := List.mem_map_of_mem Prod.fst hp
        rw [e] at hm
        exact hnd.1 hm
    · simp only [VisualData.bump, h, if_false, List.mem_cons] at hp
      rcases hp with hp | hp
      · subst hp
        exact Or.inl ⟨List.mem_cons_self _ _, h⟩
      · rcases mem_bump k p rest hnd.2 hp with ⟨h1, h2⟩ | ⟨n, h1, h2⟩ | ⟨h1, h2⟩
        · exact Or.inl ⟨List.mem_cons_of_mem _ h1, h2⟩
        · exact Or.inr (Or.inl ⟨n, h1, List.mem_cons_of_mem _ h2⟩)
        · refine Or.inr (Or.inr ⟨h1, ?_⟩)
          simp only [List.map_cons, List.mem_cons, not_or]
          exact ⟨fun e => h e.symm, h2⟩

/-- The invariant of the fold of `bump` over the rendered dates `ks`: the keys are distinct,
they are the dates seen, in the order of their first occurrence, and every key is paired
with the number of its occurrences. -/
theorem foldl_bump_spec (ks : List String) :
    ((ks.foldl VisualData.bump []).map Prod.fst).Nodup ∧
    (∀ l, l ∈ (ks.foldl VisualData.bump []).map Prod.fst ↔ l ∈ ks) ∧
    ((ks.foldl VisualData.bump []).map Prod.fst).Pairwise
      (fun a b => ks.indexOf a < ks.indexOf b) ∧
    (∀ p ∈ ks.foldl VisualData.bump [], p.2 = ks.count p.1) := by
  induction ks using List.reverseRecOn with
  | nil => simp
  | append_singleton ks k ih =>
    obtain ⟨hnd, hmem, hord, hcnt⟩ := ih
    rw [List.foldl_append, List.foldl_cons, List.foldl_nil]
    have hord' : ((ks.foldl VisualData.bump []).map Prod.fst).Pairwise
        (fun a b => (ks ++ [k]).indexOf a < (ks ++ [k]).indexOf b) := by
      refine hord.imp_of_mem ?_
      intro a b ha hb hab
      rw [List.indexOf_append_of_mem ((hmem a).mp ha),
        List.indexOf_append_of_mem ((hmem b).mp hb)]
      exact hab
    refine ⟨?_, ?_, ?_, ?_⟩
    · rw [keys_bump]
      split
      · exact hnd
      · rename_i hk
        exact List.Nodup.append hnd (List.nodup_singleton k) (by simpa using hk)
    · intro l
      rw [keys_bump]
      split
      · rename_i hk
        rw [hmem, List.mem_append, List.mem_singleton]
        constructor
        · exact Or.inl
        · rintro (h | h)
          · exact h
          · rw [h]; exact (hmem k).mp hk
      · rw [List.mem_append, List.mem_append, hmem]
    · rw [keys_bump]
      split
      · exact hord'
      · rename_i hk
        rw [List.pairwise_append]
        refine ⟨hord', List.pairwise_singleton _ _, ?_⟩
        intro a ha b hb
        rw [List.mem_singleton] at hb
        subst hb
        have hak : a ∈ ks := (hmem a).mp ha
        have hbk : b ∉ ks := fun h => hk ((hmem b).mpr h)
        rw [List.indexOf_append_of_mem hak, List.indexOf_append_of_not_mem hbk]
        have := List.indexOf_lt_length.mpr hak
        omega
    · intro p hp
      rw [List.count_append]
      rcases mem_bump k p _ hnd hp with ⟨h1, h2⟩ | ⟨n, h1, h2⟩ | ⟨h1, h2⟩
      · rw [hcnt p h1]
        simp [List.count_cons, h2]
      · have := hcnt _ h2
        simp only at this
        rw [h1]
        simp [this]
      · have hk : k ∉ ks := fun h => h2 ((hmem k).mpr h)
        rw [h1]
        simp [List.count_eq_zero_of_not_mem hk]

theorem sum_bump (k : String) :
    ∀ acc : List (String × Nat),
      ((VisualData.bump acc k).map Prod.snd).sum = (acc.map Prod.snd).sum + 1
  | [] => by simp [VisualData.bump]
  | (k', n) :: rest => by
    by_cases h : k' = k
    · simp [VisualData.bump, h]; omega
    · simp [VisualData.bump, h, sum_bump k rest]; omega

theorem sum_foldl_bump :
    ∀ (ks : List String) (acc : List (String × Nat)),
      ((ks.foldl VisualData.bump acc).map Prod.snd).sum = (acc.map Prod.snd).sum + ks.length
  | [], _ => by simp
  | k :: ks, acc => by
    rw [List.foldl_cons, sum_foldl_bump ks, sum_bump, List.length_cons]
    omega

theorem sum_processTimeSeriesData (env : Env) (data : List JVal) (f : String) :
    (VisualData.processTimeSeriesData env data f).data.sum
      = (data.filter (fun r => (r.prop f).truthy)).length := by
  unfold VisualData.processTimeSeriesData VisualData.grouped
  simp only
  rw [grouped_eq_foldl_bump, sum_foldl_bump]
  simp [renderedDates]

theorem truthy_of_mem_filterByDate (env : Env) {sel : String} (data : List JVal) (f : String)
    (hsel : sel ∈ chartSelections) :
    ∀ r ∈ VisualData.filterByDate env sel data f, (r.prop f).truthy = true := by
  simp only [chartSelections, List.mem_cons, List.mem_singleton, List.not_mem_nil,
    or_false] at hsel
  intro r hr
  unfold VisualData.filterByDate at hr
  rcases hsel with hs | hs | hs | hs <;> subst hs <;>
    simp [List.mem_filter, VisualData.isToday, VisualData.sinceCutoff] at hr <;>
    exact hr.2.1

/-- C9: the daily histogram has one label for each distinct rendered date among the records
that carry a timestamp, the labels stand in the order in which their dates are first
encountered, and the count paired with a label is the number of records falling on that
date. -/
theorem daily_histogram_counts_dates_in_first_seen_order (env : Env) (data : List JVal)
    (f : String) :
    (VisualData.processTimeSeriesData env data f).labels.Nodup ∧
    (∀ l, l ∈ (VisualData.processTimeSeriesData env data f).labels ↔
      l ∈ renderedDates env data f) ∧
    (VisualData.processTimeSeriesData env data f).labels.Pairwise
      (fun a b => (renderedDates env data f).indexOf a < (renderedDates env data f).indexOf b) ∧
    (VisualData.processTimeSeriesData env data f).data
      = (VisualData.processTimeSeriesData env data f).labels.map
          (fun l => (renderedDates env data f).count l) := by
  obtain ⟨h1, h2, h3, h4⟩ := foldl_bump_spec (renderedDates env data f)
  unfold VisualData.processTimeSeriesData VisualData.grouped
  simp only
  rw [grouped_eq_foldl_bump]
  refine ⟨h1, h2, h3, ?_⟩
  rw [List.map_map]
  exact List.map_congr_left h4

/-- The scenario of C9: two orders of 31 March followed by one of 29 March, and an order
without a timestamp, give the labels of the two days in that order with the counts 2 and 1. -/
theorem daily_histogram_counts_dates_in_first_seen_order_witness :
    VisualData.processTimeSeriesData Sample.env
      [Sample.orderB, Sample.orderC, Sample.orderNoTime, Sample.orderA] "orderTime"
      = { labels := ["3/31/2024", "3/29/2024"], data := [2, 1] } ∧
    (VisualData.processTimeSeriesData Sample.env
      [Sample.orderB, Sample.orderC, Sample.orderNoTime, Sample.orderA] "orderTime").labels.Nodup :=
  ⟨by decide,
   (daily_histogram_counts_dates_in_first_seen_order Sample.env
      [Sample.orderB, Sample.orderC, Sample.orderNoTime, Sample.orderA] "orderTime").1⟩

/-- C10: under every selection that `filterByDate` offers (the same-day selection and the
three rolling windows), the bucket counts of the daily histogram of the filtered sequence
sum exactly to the length of that sequence. -/
theorem histogram_sum_equals_filtered_length (env : Env) (sel : String) (data : List JVal)
    (f : String) (hsel : sel ∈ chartSelections) :
    (VisualData.processTimeSeriesData env (VisualData.filterByDate env sel data f) f).data.sum
      = (VisualData.filterByDate env sel data f).length := by
  rw [sum_processTimeSeriesData,
    List.filter_eq_self.mpr (truthy_of_mem_filterByDate env data f hsel)]

/-- An instance of C10: the orders of the last three days, one order without a timestamp
being filtered out. -/
theorem histogram_sum_equals_filtered_length_witness :
    "Last 3 Days" ∈ chartSelections ∧
    (VisualData.filterByDate Sample.env "Last 3 Days"
      [Sample.orderB, Sample.orderC, Sample.orderNoTime, Sample.orderA] "orderTime").length = 3 ∧
    (VisualData.processTimeSeriesData Sample.env
      (VisualData.filterByDate Sample.env "Last 3 Days"
        [Sample.orderB, Sample.orderC, Sample.orderNoTime, Sample.orderA] "orderTime")
      "orderTime").data.sum
      = (VisualData.filterByDate Sample.env "Last 3 Days"
          [Sample.orderB, Sample.orderC, Sample.orderNoTime, Sample.orderA] "orderTime").length :=
  ⟨by decide, by decide,
   histogram_sum_equals_filtered_length Sample.env "Last 3 Days"
     [Sample.orderB, Sample.orderC, Sample.orderNoTime, Sample.orderA] "orderTime"
     (by decide)⟩

/-! ## The category and status splits -/

theorem deliveryLike_excludes_tapCollectLike {o : JVal} (h : deliveryLike o = true) :
    tapCollectLike o = false := by
  unfold deliveryLike at h
  unfold tapCollectLike
  split at h
  · rename_i heq
    simp [heq]
  · cases h

theorem deliveryOrders_ok {fo : List JVal} (h : ∀ o ∈ fo, o.isNullish = false) :
    VisualData.deliveryOrders fo = .ok (fo.filter deliveryLike) :=
  filterE_eq_ok_filter _ _ fo (fun o ho => isDelivery_ok (h o ho))

theorem tapCollectOrders_ok {fo : List JVal} (h : ∀ o ∈ fo, o.isNullish = false) :
    VisualData.tapCollectOrders fo = .ok (fo.filter tapCollectLike) :=
  filterE_eq_ok_filter _ _ fo (fun o ho => isTapCollect_ok (h o ho))

theorem length_filter_add_of_exclusive (p q : JVal → Bool)
    (hpq : ∀ x, p x = true → q x = false) :
    ∀ l : List JVal, (l.filter p).length + (l.filter q).length
      = (l.filter (fun x => p x || q x)).length
  | [] => rfl
  | x :: l => by
    have ih := length_filter_add_of_exclusive p q hpq l
    cases hp : p x
    · cases hq : q x <;> simp [List.filter_cons, hp, hq] <;> omega
    · simp [List.filter_cons, hp, hpq x hp]
      omega

theorem notBeforeNow_ok (env : Env) {r : JVal} (h : r.isNullish = false) :
    VisualData.notBeforeNow env r = .ok (upcomingLike env r) := by
  simp [VisualData.notBeforeNow, JVal.get, h, upcomingLike, bind, Except.bind, pure,
    Except.pure]

theorem processReservationStatusData_ok (env : Env) {fr : List JVal}
    (h : ∀ r ∈ fr, r.isNullish = false) :
    VisualData.processReservationStatusData env fr = .ok
      { labels := ["Upcoming", "Past"],
        data := [fr.countP (upcomingLike env), fr.countP (fun r => !upcomingLike env r)] } := by
  have hlen : fr.length - (fr.filter (upcomingLike env)).length
      = fr.countP (fun r => !upcomingLike env r) := by
    have h1 := List.length_eq_countP_add_countP (upcomingLike env) fr
    rw [← List.countP_eq_length_filter]
    have h2 : List.countP (fun a => decide ¬upcomingLike env a = true) fr
        = fr.countP (fun r => !upcomingLike env r) := by
      congr 1
      funext a
      cases upcomingLike env a <;> rfl
    omega
  unfold VisualData.processReservationStatusData
  rw [filterE_eq_ok_filter _ _ fr (fun r hr => notBeforeNow_ok env (h r hr))]
  simp only [bind, Except.bind, pure, Except.pure, hlen, List.countP_eq_length_filter]

/-- C11: on filtered orders (none of them `null`) the two category buckets are disjoint,
an order matching neither category is in neither bucket, the two sizes add up to at most
the filtered total, and to exactly the total if and only if every filtered order matches
one of the two categories. -/
theorem category_buckets_disjoint_within_total (fo : List JVal)
    (h : ∀ o ∈ fo, o.isNullish = false) :
    ∃ d t, VisualData.deliveryOrders fo = .ok d ∧ VisualData.tapCollectOrders fo = .ok t ∧
      VisualData.processOrderTypeData fo
        = .ok { labels := ["Delivery", "Tap & Collect"], data := [d.length, t.length] } ∧
      (∀ o, o ∈ d ↔ o ∈ fo ∧ deliveryLike o = true) ∧
      (∀ o, o ∈ t ↔ o ∈ fo ∧ tapCollectLike o = true) ∧
      (∀ o, o ∈ d → o ∉ t) ∧
      (∀ o ∈ fo, deliveryLike o = false → tapCollectLike o = false → o ∉ d ∧ o ∉ t) ∧
      d.length + t.length ≤ fo.length ∧
      (d.length + t.length = fo.length ↔
        ∀ o ∈ fo, deliveryLike o = true ∨ tapCollectLike o = true) := by
  refine ⟨fo.filter deliveryLike, fo.filter tapCollectLike, deliveryOrders_ok h,
    tapCollectOrders_ok h, ?_, ?_, ?_, ?_, ?_, ?_, ?_⟩
  · simp [VisualData.processOrderTypeData, deliveryOrders_ok h, tapCollectOrders_ok h, bind,
      Except.bind, pure, Except.pure]
  · intro o; exact List.mem_filter
  · intro o; exact List.mem_filter
  · intro o hd ht
    have h1 := deliveryLike_excludes_tapCollectLike (List.mem_filter.mp hd).2
    rw [(List.mem_filter.mp ht).2] at h1
    cases h1
  · intro o _ hd ht
    constructor
    · intro hm; rw [(List.mem_filter.mp hm).2] at hd; cases hd
    · intro hm; rw [(List.mem_filter.mp hm).2] at ht; cases ht
  · rw [length_filter_add_of_exclusive _ _ (fun x => deliveryLike_excludes_tapCollectLike) fo]
    exact List.length_filter_le _ _
  · rw [length_filter_add_of_exclusive _ _ (fun x => deliveryLike_excludes_tapCollectLike) fo,
      ← List.countP_eq_length_filter, List.countP_eq_length]
    simp

/-- An instance of C11: a delivery order, a pickup order and an order of neither category. -/
theorem category_buckets_disjoint_within_total_witness :
    (∀ o ∈ [Sample.orderA, Sample.orderB, Sample.orderNoCategory], o.isNullish = false) ∧
    VisualData.processOrderTypeData [Sample.orderA, Sample.orderB, Sample.orderNoCategory]
      = .ok { labels := ["Delivery", "Tap & Collect"], data := [1, 1] } ∧
    ∃ d t, VisualData.deliveryOrders [Sample.orderA, Sample.orderB, Sample.orderNoCategory]
        = .ok d ∧
      VisualData.tapCollectOrders [Sample.orderA, Sample.orderB, Sample.orderNoCategory]
        = .ok t ∧
      d.length + t.length ≤ [Sample.orderA, Sample.orderB, Sample.orderNoCategory].length :=
  have h := category_buckets_disjoint_within_total
    [Sample.orderA, Sample.orderB, Sample.orderNoCategory] (by decide)
  ⟨by decide, rfl, h.choose, h.choose_spec.choose, h.choose_spec.choose_spec.1,
    h.choose_spec.choose_spec.2.1, h.choose_spec.choose_spec.2.2.2.2.2.2.2.1⟩

/-- C12: on filtered reservations (none of them `null`) `processReservationStatusData`
returns the number of reservations whose date is `>=` the clock reading, then the number
of all the others; the two add up to the filtered total. -/
theorem reservation_status_is_total_partition (env : Env) (fr : List JVal)
    (h : ∀ r ∈ fr, r.isNullish = false) :
    VisualData.processReservationStatusData env fr = .ok
      { labels := ["Upcoming", "Past"],
        data := [fr.countP (upcomingLike env), fr.countP (fun r => !upcomingLike env r)] } ∧
    fr.countP (upcomingLike env) + fr.countP (fun r => !upcomingLike env r) = fr.length := by
  refine ⟨processReservationStatusData_ok env h, ?_⟩
  have h1 := List.length_eq_countP_add_countP (upcomingLike env) fr
  have h2 : List.countP (fun a => decide ¬upcomingLike env a = true) fr
      = fr.countP (fun r => !upcomingLike env r) := by
    congr 1
    funext a
    cases upcomingLike env a <;> rfl
  omega

/-- The scenario of C12: two reservations after the clock reading and one before it. -/
theorem reservation_status_is_total_partition_witness :
    (∀ r ∈ [Sample.reservationA, Sample.reservationB, Sample.reservationC],
      r.isNullish = false) ∧
    VisualData.processReservationStatusData Sample.env
      [Sample.reservationA, Sample.reservationB, Sample.reservationC]
      = .ok { labels := ["Upcoming", "Past"], data := [2, 1] } :=
  ⟨by decide,
   (reservation_status_is_total_partition Sample.env
      [Sample.reservationA, Sample.reservationB, Sample.reservationC] (by decide)).1⟩

/-! ## Percentages and the best day -/

/-- On non-zero totals `percent` follows the doubles of the source: 23 of 40 is
57.49999999999999 and rounds to 57, 29 of 200 is 14.499999999999998 and rounds to 14, and
1 of 8 is 12.5 and rounds to 13. -/
theorem percent_rounds_the_double :
    VisualData.percent 23 40 = .int 57 ∧ VisualData.percent 29 200 = .int 14 ∧
    VisualData.percent 1 8 = .int 13 ∧ VisualData.percent 1 3 = .int 33 := by
  decide

/-- C13, at its failing input: with no order and no reservation in the period every total
is 0 and each percentage of the summary is NaN, as is the percentage of a pie tooltip over
a dataset that sums to 0; with a zero denominator `percent` never yields a number. -/
theorem percent_of_zero_total_is_nan :
    (VisualData.calculateSummary Sample.env [] []).map
        (fun s => (s.totalOrders, s.totalReservations, VisualData.deliveryPercent s,
          VisualData.tapCollectPercent s, VisualData.upcomingPercent s))
      = .ok (0, 0, .nan, .nan, .nan) ∧
    VisualData.piePercentage [0, 0] 0 = .nan ∧
    VisualData.percent 0 0 = .nan ∧
    ∀ part n, VisualData.percent part 0 ≠ .int n := by
  refine ⟨rfl, rfl, rfl, ?_⟩
  intro part n
  unfold VisualData.percent
  rw [if_pos rfl]
  split <;> simp

theorem toLocaleDateString_ne_na (env : Env) (d : DateObj) :
    toLocaleDateString env d ≠ "N/A" := by
  intro h
  have hc := congrArg (fun s : String => s.data.count '/') h
  cases d with
  | none => simp [toLocaleDateString] at hc
  | some t =>
    simp [toLocaleDateString, String.data_append, List.count_append] at hc
    omega

theorem na_not_mem_renderedDates (env : Env) (data : List JVal) (f : String) :
    "N/A" ∉ renderedDates env data f := by
  intro h
  simp only [renderedDates, List.mem_map] at h
  obtain ⟨r, -, hr⟩ := h
  exact toLocaleDateString_ne_na env _ hr

/-- The reduction `(a, b) => c[a] > c[b] ? a : b` returns an element of the list that is
not exceeded by the elements before it and exceeds the elements after it. -/
theorem foldl_keep_greater_split (c : String → Nat) (k : String) (ks : List String) :
    ∃ pre post,
      k :: ks = pre ++ ks.foldl (fun a b => if c a > c b then a else b) k :: post ∧
      (∀ x ∈ pre, c x ≤ c (ks.foldl (fun a b => if c a > c b then a else b) k)) ∧
      (∀ x ∈ post, c x < c (ks.foldl (fun a b => if c a > c b then a else b) k)) := by
  induction ks using List.reverseRecOn with
  | nil => exact ⟨[], [], rfl, by simp, by simp⟩
  | append_singleton ks b ih =>
    obtain ⟨pre, post, hsplit, hpre, hpost⟩ := ih
    rw [List.foldl_append, List.foldl_cons, List.foldl_nil]
    generalize ks.foldl (fun a b => if c a > c b then a else b) k = r at *
    by_cases hgt : c r > c b
    · rw [if_pos hgt]
      refine ⟨pre, post ++ [b], ?_, hpre, ?_⟩
      · rw [← List.cons_append, hsplit]; simp
      · intro x hx
        rcases List.mem_append.mp hx with hx | hx
        · exact hpost x hx
        · rw [List.mem_singleton.mp hx]; exact hgt
    · rw [if_neg hgt]
      refine ⟨k :: ks, [], by simp, ?_, by simp⟩
      intro x hx
      rw [hsplit] at hx
      rcases List.mem_append.mp hx with hx | hx
      · have := hpre x hx; omega
      · rcases List.mem_cons.mp hx with hx | hx
        · rw [hx]; omega
        · have := hpost x hx; omega

theorem lookup_of_mem_keys (k : String) :
    ∀ g : List (String × Nat), k ∈ g.map Prod.fst → ∃ n, g.lookup k = some n ∧ (k, n) ∈ g
  | [], h => by cases h
  | (k', n') :: g, h => by
    by_cases hk : k = k'
    · subst hk
      exact ⟨n', by simp [List.lookup], List.mem_cons_self _ _⟩
    · have hb : (k == k') = false := by simpa using hk
      have hm : k ∈ g.map Prod.fst := by
        rcases List.mem_cons.mp h with h | h
        · exact absurd h hk
        · exact h
      obtain ⟨n, hn, hmem⟩ := lookup_of_mem_keys k g hm
      exact ⟨n, by simp [List.lookup, hb, hn], List.mem_cons_of_mem _ hmem⟩

/-- In the histogram object, the count read for a label is the number of records rendered
to that label. -/
theorem countIn_grouped (env : Env) (data : List JVal) (f : String) {l : String}
    (hl : l ∈ (VisualData.grouped env data f).map Prod.fst) :
    VisualData.countIn (VisualData.grouped env data f) l = (renderedDates env data f).count l := by
  obtain ⟨n, hn, hmem⟩ := lookup_of_mem_keys l _ hl
  have hg : VisualData.grouped env data f
      = (renderedDates env data f).foldl VisualData.bump [] := by
    unfold VisualData.grouped
    exact grouped_eq_foldl_bump env f data []
  have hc := (foldl_bump_spec (renderedDates env data f)).2.2.2 (l, n) (hg ▸ hmem)
  simp only [VisualData.countIn, hn, Option.getD_some]
  exact hc

theorem labels_eq_keys (env : Env) (data : List JVal) (f : String) :
    (VisualData.processTimeSeriesData env data f).labels
      = (VisualData.grouped env data f).map Prod.fst := rfl

theorem mem_labels_iff (env : Env) (data : List JVal) (f : String) (l : String) :
    l ∈ (VisualData.grouped env data f).map Prod.fst ↔ l ∈ renderedDates env data f := by
  have hg : VisualData.grouped env data f
      = (renderedDates env data f).foldl VisualData.bump [] := by
    unfold VisualData.grouped
    exact grouped_eq_foldl_bump env f data []
  rw [hg]
  exact (foldl_bump_spec (renderedDates env data f)).2.1 l

theorem grouped_eq_nil_iff (env : Env) (data : List JVal) (f : String) :
    VisualData.grouped env data f = [] ↔ renderedDates env data f = [] := by
  constructor
  · intro h
    apply List.eq_nil_iff_forall_not_mem.mpr
    intro l hl
    have := (mem_labels_iff env data f l).mpr hl
    rw [h] at this
    cases this
  · intro h
    unfold VisualData.grouped
    rw [grouped_eq_foldl_bump, h]
    rfl

/-- The best day of a non-empty histogram splits its labels: no label before it has more
records, every label after it has fewer. -/
theorem bestDay_split (env : Env) (data : List JVal) (f : String)
    (hne : renderedDates env data f ≠ []) :
    LastBestDayOf env data f (VisualData.bestDay (VisualData.grouped env data f)) := by
  have hgne : VisualData.grouped env data f ≠ [] :=
    fun h => hne ((grouped_eq_nil_iff env data f).mp h)
  unfold LastBestDayOf
  rw [labels_eq_keys]
  unfold VisualData.bestDay
  cases hk : (VisualData.grouped env data f).map Prod.fst with
  | nil => exact absurd (List.map_eq_nil_iff.mp hk) hgne
  | cons k ks =>
    obtain ⟨pre, post, hsplit, hpre, hpost⟩ :=
      foldl_keep_greater_split (VisualData.countIn (VisualData.grouped env data f)) k ks
    simp only
    generalize ks.foldl (fun a b =>
      if VisualData.countIn (VisualData.grouped env data f) a >
        VisualData.countIn (VisualData.grouped env data f) b then a else b) k = best at *
    have hmem : ∀ x, x ∈ pre ++ best :: post →
        x ∈ (VisualData.grouped env data f).map Prod.fst := by
      intro x hx
      rw [hk, hsplit]
      exact hx
    have hbest := countIn_grouped env data f (hmem best (by simp))
    refine ⟨pre, post, hsplit, ?_, ?_⟩
    · intro l hl
      have h1 := hpre l hl
      rw [countIn_grouped env data f (hmem l (by simp [hl])), hbest] at h1
      exact h1
    · intro l hl
      have h1 := hpost l hl
      rw [countIn_grouped env data f (hmem l (by simp [hl])), hbest] at h1
      exact h1

theorem bestDay_of_empty (env : Env) (data : List JVal) (f : String)
    (he : renderedDates env data f = []) :
    VisualData.bestDay (VisualData.grouped env data f) = "N/A" := by
  rw [(grouped_eq_nil_iff env data f).mpr he]
  rfl

/-- The best day and its count, as `calculateSummary` stores them, form a best day of the
histogram. -/
theorem bestDayOf_bestDay (env : Env) (data : List JVal) (f : String) :
    BestDayOf env data f (VisualData.bestDay (VisualData.grouped env data f))
      (if VisualData.bestDay (VisualData.grouped env data f) ≠ "N/A" then
        VisualData.countIn (VisualData.grouped env data f)
          (VisualData.bestDay (VisualData.grouped env data f))
       else 0) := by
  constructor
  · intro hne
    obtain ⟨pre, post, hsplit, hpre, hpost⟩ := bestDay_split env data f hne
    have hmemb : VisualData.bestDay (VisualData.grouped env data f)
        ∈ (VisualData.processTimeSeriesData env data f).labels := by
      rw [hsplit]; simp
    refine ⟨hmemb, ?_, ?_⟩
    · intro l hl
      rw [hsplit] at hl
      rcases List.mem_append.mp hl with hl | hl
      · exact hpre l hl
      · rcases List.mem_cons.mp hl with hl | hl
        · rw [hl]
        · exact Nat.le_of_lt (hpost l hl)
    · rw [labels_eq_keys] at hmemb
      have hna : VisualData.bestDay (VisualData.grouped env data f) ≠ "N/A" := by
        intro h
        rw [h] at hmemb
        exact na_not_mem_renderedDates env data f ((mem_labels_iff env data f _).mp hmemb)
      rw [if_pos hna]
      exact countIn_grouped env data f hmemb
  · intro he
    have hb := bestDay_of_empty env data f he
    exact ⟨hb, by rw [if_neg (by simp [hb])]⟩

theorem calculateSummary_ok (env : Env) {fo fr : List JVal}
    (ho : ∀ o ∈ fo, o.isNullish = false) (hr : ∀ r ∈ fr, r.isNullish = false) :
    VisualData.calculateSummary env fo fr = .ok
      { totalOrders := fo.length
        totalReservations := fr.length
        deliveryOrders := (fo.filter deliveryLike).length
        tapCollectOrders := (fo.filter tapCollectLike).length
        upcomingReservations := fr.countP (upcomingLike env)
        bestOrderDay := VisualData.bestDay (VisualData.grouped env fo "orderTime")
        bestOrderDayCount :=
          if VisualData.bestDay (VisualData.grouped env fo "orderTime") ≠ "N/A" then
            VisualData.countIn (VisualData.grouped env fo "orderTime")
              (VisualData.bestDay (VisualData.grouped env fo "orderTime"))
          else 0
        bestResDay := VisualData.bestDay (VisualData.grouped env fr "date")
        bestResDayCount :=
          if VisualData.bestDay (VisualData.grouped env fr "date") ≠ "N/A" then
            VisualData.countIn (VisualData.grouped env fr "date")
              (VisualData.bestDay (VisualData.grouped env fr "date"))
          else 0 } := by
  simp only [VisualData.calculateSummary, deliveryOrders_ok ho, tapCollectOrders_ok ho,
    processReservationStatusData_ok env hr, bind, Except.bind, pure, Except.pure,
    List.getD_cons_zero]

/-- C14: on filtered orders and reservations (none of them `null`) `calculateSummary`
returns, for each collection, a day of the daily histogram whose count no other day
exceeds, with that day's count, when some record carries a timestamp; and `"N/A"` with the
count 0 when the histogram is empty. -/
theorem best_day_has_largest_count (env : Env) (fo fr : List JVal)
    (ho : ∀ o ∈ fo, o.isNullish = false) (hr : ∀ r ∈ fr, r.isNullish = false) :
    ∃ s, VisualData.calculateSummary env fo fr = .ok s ∧
      BestDayOf env fo "orderTime" s.bestOrderDay s.bestOrderDayCount ∧
      BestDayOf env fr "date" s.bestResDay s.bestResDayCount :=
  ⟨_, calculateSummary_ok env ho hr, bestDayOf_bestDay env fo "orderTime",
    bestDayOf_bestDay env fr "date"⟩

/-- An instance of C14: two orders on 31 March and one on 29 March, and no reservation. -/
theorem best_day_has_largest_count_witness :
    (VisualData.calculateSummary Sample.env [Sample.orderA, Sample.orderB, Sample.orderC]
        []).map (fun s => (s.bestOrderDay, s.bestOrderDayCount, s.bestResDay, s.bestResDayCount))
      = .ok ("3/31/2024", 2, "N/A", 0) ∧
    ∃ s, VisualData.calculateSummary Sample.env [Sample.orderA, Sample.orderB, Sample.orderC] []
        = .ok s ∧
      BestDayOf Sample.env [Sample.orderA, Sample.orderB, Sample.orderC] "orderTime"
        s.bestOrderDay s.bestOrderDayCount ∧
      BestDayOf Sample.env [] "date" s.bestResDay s.bestResDayCount :=
  ⟨rfl, best_day_has_largest_count Sample.env [Sample.orderA, Sample.orderB, Sample.orderC] []
    (by decide) (by decide)⟩

/-- Counterexample to C15 as stated: two days tie with one order each, and the best day is
the second of them in iteration order, whose count does not exceed that of the day before
it. -/
theorem best_day_tie_keeps_later_day :
    (VisualData.processTimeSeriesData Sample.env [Sample.orderB, Sample.orderA]
      "orderTime") = { labels := ["3/31/2024", "3/29/2024"], data := [1, 1] } ∧
    (VisualData.calculateSummary Sample.env [Sample.orderB, Sample.orderA] []).map
        (fun s => (s.bestOrderDay, s.bestOrderDayCount)) = .ok ("3/29/2024", 1) ∧
    ¬ ((renderedDates Sample.env [Sample.orderB, Sample.orderA] "orderTime").count "3/31/2024"
        < (renderedDates Sample.env [Sample.orderB, Sample.orderA] "orderTime").count
            "3/29/2024") :=
  ⟨by decide, rfl, by decide⟩

/-- C15, amended: when several days tie for the largest count, the best day of
`calculateSummary` is the last of them in iteration order: for a non-empty histogram no
day before the returned day has a larger count and every day after it has a smaller one. -/
theorem best_day_is_last_of_ties (env : Env) (fo fr : List JVal)
    (ho : ∀ o ∈ fo, o.isNullish = false) (hr : ∀ r ∈ fr, r.isNullish = false) :
    ∃ s, VisualData.calculateSummary env fo fr = .ok s ∧
      (renderedDates env fo "orderTime" ≠ [] → LastBestDayOf env fo "orderTime" s.bestOrderDay) ∧
      (renderedDates env fr "date" ≠ [] → LastBestDayOf env fr "date" s.bestResDay) :=
  ⟨_, calculateSummary_ok env ho hr, bestDay_split env fo "orderTime",
    bestDay_split env fr "date"⟩

/-- An instance of the amended C15: the tie of the counterexample. -/
theorem best_day_is_last_of_ties_witness :
    renderedDates Sample.env [Sample.orderB, Sample.orderA] "orderTime" ≠ [] ∧
    ∃ s, VisualData.calculateSummary Sample.env [Sample.orderB, Sample.orderA] [] = .ok s ∧
      (renderedDates Sample.env [Sample.orderB, Sample.orderA] "orderTime" ≠ [] →
        LastBestDayOf Sample.env [Sample.orderB, Sample.orderA] "orderTime" s.bestOrderDay) ∧
      (renderedDates Sample.env [] "date" ≠ [] →
        LastBestDayOf Sample.env [] "date" s.bestResDay) :=
  ⟨by decide, best_day_is_last_of_ties Sample.env [Sample.orderB, Sample.orderA] []
    (by decide) (by decide)⟩

/-! ## The badge counts -/

theorem filterOrdersByTypeAndDate_ok (env : Env) (sel menuOption : String) {orders : List JVal}
    (h : ∀ o ∈ orders, o.isNullish = false) :
    App.filterOrdersByTypeAndDate env orders sel menuOption = .ok
      (if menuOption = "Tap & Collect" then
        (if sel = "all" then orders
          else orders.filter (keptByDate env "orderTime" (App.getDateRange env sel))).filter
          tapCollectLike
       else if menuOption = "Delivery Orders" then
        (if sel = "all" then orders
          else orders.filter (keptByDate env "orderTime" (App.getDateRange env sel))).filter
          deliveryLike
       else (if sel = "all" then orders
          else orders.filter (keptByDate env "orderTime" (App.getDateRange env sel)))) := by
  have hdn : ∀ r ∈ (if sel = "all" then orders
      else orders.filter (keptByDate env "orderTime" (App.getDateRange env sel))),
      r.isNullish = false := by
    split
    · exact h
    · exact not_nullish_of_sublist (List.filter_sublist _) h
  show (App.dateStage env sel orders).bind (App.typeStage menuOption) = _
  rw [dateStage_ok env sel h]
  exact typeStage_ok menuOption hdn

/-- A falsy timestamp is never read as an instant after the epoch, the empty string being
no date. -/
theorem truthy_of_positive_time (env : Env) (hparse : env.parse "" = none) {v : JVal} {t : Int}
    (hv : newDate env v = some t) (ht : 0 < t) : v.truthy = true := by
  cases v with
  | undefined => simp [newDate] at hv
  | null => simp [newDate] at hv; omega
  | bool b =>
    cases b
    · simp [newDate] at hv; omega
    · rfl
  | num n =>
    by_cases hn : n = 0
    · subst hn
      simp [newDate, timeClip] at hv
      omega
    · simp [JVal.truthy, hn]
  | str s =>
    by_cases hs : s = ""
    · subst hs
      simp [newDate, hparse] at hv
    · simp [JVal.truthy, hs]
  | arr _ => rfl
  | obj _ => rfl

theorem upcoming_and_cutoff_eq (env : Env) (hnow : 0 < env.now) (hparse : env.parse "" = none)
    (c : Option DateObj) (r : JVal) :
    (upcomingLike env r && geCutoff (newDate env (r.prop "date")) c)
      = (upcomingLike env r && keptByDate env "date" c r) := by
  unfold keptByDate
  cases hu : upcomingLike env r
  · simp
  · have htr : (r.prop "date").truthy = true := by
      unfold upcomingLike dateGe at hu
      cases hd : newDate env (r.prop "date") with
      | none => rw [hd] at hu; simp at hu
      | some t =>
        rw [hd] at hu
        simp at hu
        exact truthy_of_positive_time env hparse hd (by omega)
    simp [htr]

/-- C17: with a clock that reads an instant after the epoch, each badge count is the number
of pending (or upcoming) records of the corresponding filtered view, hence at most the
number of records shown. -/
theorem badge_counts_agree_with_filtered_views (env : Env) (hnow : 0 < env.now)
    (hparse : env.parse "" = none) (orders reservations : List JVal) (sel : String)
    (ho : ∀ o ∈ orders, o.isNullish = false) (hr : ∀ r ∈ reservations, r.isNullish = false) :
    ∃ pickup delivery shown,
      App.filterOrdersByTypeAndDate env orders sel "Tap & Collect" = .ok pickup ∧
      App.pendingPickupCount env orders sel = .ok (pickup.countP pendingLike) ∧
      pickup.countP pendingLike ≤ pickup.length ∧
      App.filterOrdersByTypeAndDate env orders sel "Delivery Orders" = .ok delivery ∧
      App.pendingDeliveryCount env orders sel = .ok (delivery.countP pendingLike) ∧
      delivery.countP pendingLike ≤ delivery.length ∧
      App.filterReservationsByDate env reservations sel = .ok shown ∧
      App.upcomingReservationsCount env reservations sel
        = .ok (shown.countP (upcomingLike env)) ∧
      shown.countP (upcomingLike env) ≤ shown.length := by
  refine ⟨_, _, _, filterOrdersByTypeAndDate_ok env sel "Tap & Collect" ho, ?_,
    List.countP_le_length _, filterOrdersByTypeAndDate_ok env sel "Delivery Orders" ho, ?_,
    List.countP_le_length _, filterReservationsByDate_ok env sel hr, ?_,
    List.countP_le_length _⟩
  · rw [pendingPickupCount_ok env sel ho]
    congr 1
    by_cases hs : sel = "all"
    · simp only [hs, if_true, List.countP_filter]
      congr 1
      funext o
      simp only [pendingLike, beq_self_eq_true, Bool.true_or, Bool.and_true]
      exact Bool.and_comm _ _
    · have hb : (sel == "all") = false := by simpa using hs
      simp only [hs, if_true, if_false, List.countP_filter, hb, Bool.false_or]
      congr 1
      funext o
      simp only [pendingLike]
      cases tapCollectLike o <;> cases (o.prop "isDelivered").truthy <;>
        cases keptByDate env "orderTime" (App.getDateRange env sel) o <;> rfl
  · rw [pendingDeliveryCount_ok env sel ho]
    congr 1
    by_cases hs : sel = "all"
    · have h1 : ¬ ("Delivery Orders" = "Tap & Collect") := by decide
      simp only [hs, h1, if_true, if_false, List.countP_filter]
      congr 1
      funext o
      simp only [pendingLike, beq_self_eq_true, Bool.true_or, Bool.and_true]
      exact Bool.and_comm _ _
    · have hb : (sel == "all") = false := by simpa using hs
      have h1 : ¬ ("Delivery Orders" = "Tap & Collect") := by decide
      simp only [hs, h1, if_true, if_false, List.countP_filter, hb, Bool.false_or]
      congr 1
      funext o
      simp only [pendingLike]
      cases deliveryLike o <;> cases (o.prop "isDelivered").truthy <;>
        cases keptByDate env "orderTime" (App.getDateRange env sel) o <;> rfl
  · rw [upcomingReservationsCount_ok env sel hr]
    congr 1
    by_cases hs : sel = "all"
    · simp only [hs, if_true, beq_self_eq_true, Bool.true_or, Bool.and_true]
      rfl
    · have hb : (sel == "all") = false := by simpa using hs
      simp only [hs, if_false, List.countP_filter, hb, Bool.false_or]
      congr 1
      funext r
      exact upcoming_and_cutoff_eq env hnow hparse _ r

/-- An instance of C17: the delivery view of the last day shows one order, which is
pending, and the reservations of the last week show one, which is upcoming. -/
theorem badge_counts_agree_with_filtered_views_witness :
    0 < Sample.env.now ∧ Sample.env.parse "" = none ∧
    App.pendingDeliveryCount Sample.env
      [Sample.orderA, Sample.orderB, Sample.orderC, Sample.orderNoTime] "1day" = .ok 1 ∧
    App.upcomingReservationsCount Sample.env
      [Sample.reservationA, Sample.reservationB, Sample.reservationNoDate] "1week" = .ok 1 ∧
    ∃ pickup delivery shown,
      App.filterOrdersByTypeAndDate Sample.env
        [Sample.orderA, Sample.orderB, Sample.orderC, Sample.orderNoTime] "1day"
        "Tap & Collect" = .ok pickup ∧
      App.pendingPickupCount Sample.env
        [Sample.orderA, Sample.orderB, Sample.orderC, Sample.orderNoTime] "1day"
        = .ok (pickup.countP pendingLike) ∧
      pickup.countP pendingLike ≤ pickup.length ∧
      App.filterOrdersByTypeAndDate Sample.env
        [Sample.orderA, Sample.orderB, Sample.orderC, Sample.orderNoTime] "1day"
        "Delivery Orders" = .ok delivery ∧
      App.pendingDeliveryCount Sample.env
        [Sample.orderA, Sample.orderB, Sample.orderC, Sample.orderNoTime] "1day"
        = .ok (delivery.countP pendingLike) ∧
      delivery.countP pendingLike ≤ delivery.length ∧
      App.filterReservationsByDate Sample.env
        [Sample.reservationA, Sample.reservationB, Sample.reservationNoDate] "1day"
        = .ok shown ∧
      App.upcomingReservationsCount Sample.env
        [Sample.reservationA, Sample.reservationB, Sample.reservationNoDate] "1day"
        = .ok (shown.countP (upcomingLike Sample.env)) ∧
      shown.countP (upcomingLike Sample.env) ≤ shown.length :=
  ⟨by decide, rfl, rfl, rfl,
   badge_counts_agree_with_filtered_views Sample.env (by decide) rfl
     [Sample.orderA, Sample.orderB, Sample.orderC, Sample.orderNoTime]
     [Sample.reservationA, Sample.reservationB, Sample.reservationNoDate] "1day"
     (by decide) (by decide)⟩

/-! ## Calendar arithmetic -/

/-- The year of the era computed by `civilFromDays` leaves a day of the year between 0 and
365, for every day of the era. -/
theorem doy_bounds (doe : Int) (h0 : 0 ≤ doe) (h1 : doe ≤ 146096) :
    0 ≤ doe - (365 * ((doe - doe / 1460 + doe / 36524 - doe / 146096) / 365)
        + (doe - doe / 1460 + doe / 36524 - doe / 146096) / 365 / 4
        - (doe - doe / 1460 + doe / 36524 - doe / 146096) / 365 / 100) ∧
    doe - (365 * ((doe - doe / 1460 + doe / 36524 - doe / 146096) / 365)
        + (doe - doe / 1460 + doe / 36524 - doe / 146096) / 365 / 4
        - (doe - doe / 1460 + doe / 36524 - doe / 146096) / 365 / 100) ≤ 365 := by
  generalize hb : (doe - doe / 1460 + doe / 36524 - doe / 146096) / 365 = b
  have hf : doe / 36524 = 0 ∨ doe / 36524 = 1 ∨ doe / 36524 = 2 ∨ doe / 36524 = 3 ∨
      doe / 36524 = 4 := by omega
  have hj : b % 4 = 0 ∨ b % 4 = 1 ∨ b % 4 = 2 ∨ b % 4 = 3 := by omega
  have hk : doe / 1460 - b / 4 = -1 ∨ doe / 1460 - b / 4 = 0 ∨ doe / 1460 - b / 4 = 1 := by
    rcases hj with hj | hj | hj | hj <;> omega
  rcases hf with hf | hf | hf | hf | hf <;> rcases hj with hj | hj | hj | hj <;>
    rcases hk with hk | hk | hk <;> omega

/-- The civil date of a day number has a month between 0 and 11, and `daysFromCivil` leads
back from it to the day number. -/
theorem civil_roundtrip (z0 : Int) :
    0 ≤ (civilFromDays z0).2.1 ∧ (civilFromDays z0).2.1 ≤ 11 ∧
    daysFromCivil (civilFromDays z0).1 (civilFromDays z0).2.1 + (civilFromDays z0).2.2 - 1
      = z0 := by
  have hdoe : 0 ≤ z0 + 719468 - (z0 + 719468) / 146097 * 146097 ∧
      z0 + 719468 - (z0 + 719468) / 146097 * 146097 ≤ 146096 := by omega
  have hyoe : 0 ≤ ((z0 + 719468 - (z0 + 719468) / 146097 * 146097)
        - (z0 + 719468 - (z0 + 719468) / 146097 * 146097) / 1460
        + (z0 + 719468 - (z0 + 719468) / 146097 * 146097) / 36524
        - (z0 + 719468 - (z0 + 719468) / 146097 * 146097) / 146096) / 365 ∧
      ((z0 + 719468 - (z0 + 719468) / 146097 * 146097)
        - (z0 + 719468 - (z0 + 719468) / 146097 * 146097) / 1460
        + (z0 + 719468 - (z0 + 719468) / 146097 * 146097) / 36524
        - (z0 + 719468 - (z0 + 719468) / 146097 * 146097) / 146096) / 365 ≤ 399 := by omega
  have hdoy := doy_bounds _ hdoe.1 hdoe.2
  simp only [civilFromDays, daysFromCivil]
  generalize (z0 + 719468) / 146097 = era at *
  generalize hd : z0 + 719468 - era * 146097 = doe at *
  generalize (doe - doe / 1460 + doe / 36524 - doe / 146096) / 365 = yoe at *
  generalize hy : doe - (365 * yoe + yoe / 4 - yoe / 100) = doy at *
  have hmp : 0 ≤ (5 * doy + 2) / 153 ∧ (5 * doy + 2) / 153 ≤ 11 := by omega
  generalize (5 * doy + 2) / 153 = mp at *
  have hera : (yoe + era * 400) / 400 = era := by
    rw [Int.add_mul_ediv_right _ _ (by decide), Int.ediv_eq_zero_of_lt hyoe.1 (by omega)]
    omega
  split_ifs <;>
    simp only [add_zero, add_sub_cancel_right, sub_add_cancel, hera] <;> omega

/-- The month before month `m` of year `y` has 28 to 31 days. -/
theorem prev_month_length (y m : Int) (h0 : 0 ≤ m) (h1 : m ≤ 11) :
    28 ≤ daysFromCivil y m - daysFromCivil (y + (m - 1) / 12) ((m - 1) % 12) ∧
    daysFromCivil y m - daysFromCivil (y + (m - 1) / 12) ((m - 1) % 12) ≤ 31 := by
  interval_cases m <;> simp [daysFromCivil] <;> omega

/-- On a valid date, `d.setDate(d.getDate() - k)` goes back `k` whole days. -/
theorem setDate_getDate_sub (env : Env) (t k : Int) :
    setDate env t (getDate env t - k) = timeClip (t - k * msPerDay) := by
  obtain ⟨hm0, hm1, hrt⟩ := civil_roundtrip (day (t + env.tza))
  have hq : (civilFromDays (day (t + env.tza))).2.1 / 12 = 0 := by omega
  have hr : (civilFromDays (day (t + env.tza))).2.1 % 12
      = (civilFromDays (day (t + env.tza))).2.1 := by omega
  simp only [setDate, getDate, makeDay, hq, hr, add_zero]
  congr 1
  generalize daysFromCivil (civilFromDays (day (t + env.tza))).1
    (civilFromDays (day (t + env.tza))).2.1 = F at *
  generalize (civilFromDays (day (t + env.tza))).2.2 = d at *
  simp only [day, timeWithinDay, msPerDay] at *
  omega

/-- On a valid date, `d.setMonth(d.getMonth() - 1)` goes back by the length of the previous
month, 28 to 31 whole days, whether or not the day of the month exists in that month. -/
theorem setMonth_getMonth_pred (env : Env) (t : Int) :
    ∃ n : Int, 28 ≤ n ∧ n ≤ 31 ∧
      setMonth env t (getMonth env t - 1) = timeClip (t - n * msPerDay) := by
  obtain ⟨hm0, hm1, hrt⟩ := civil_roundtrip (day (t + env.tza))
  obtain ⟨hl0, hl1⟩ := prev_month_length (civilFromDays (day (t + env.tza))).1
    (civilFromDays (day (t + env.tza))).2.1 hm0 hm1
  refine ⟨daysFromCivil (civilFromDays (day (t + env.tza))).1
      (civilFromDays (day (t + env.tza))).2.1
    - daysFromCivil ((civilFromDays (day (t + env.tza))).1
        + ((civilFromDays (day (t + env.tza))).2.1 - 1) / 12)
      (((civilFromDays (day (t + env.tza))).2.1 - 1) % 12), hl0, hl1, ?_⟩
  simp only [setMonth, getMonth, makeDay]
  congr 1
  generalize daysFromCivil (civilFromDays (day (t + env.tza))).1
    (civilFromDays (day (t + env.tza))).2.1 = F at *
  generalize daysFromCivil ((civilFromDays (day (t + env.tza))).1
        + ((civilFromDays (day (t + env.tza))).2.1 - 1) / 12)
      (((civilFromDays (day (t + env.tza))).2.1 - 1) % 12) = G at *
  generalize (civilFromDays (day (t + env.tza))).2.2 = d at *
  simp only [day, timeWithinDay, msPerDay] at *
  have hmul : (F - G) * 86400000 = F * 86400000 - G * 86400000 := by ring
  omega

theorem timeClip_of_range {t : Int} (h0 : -8640000000000000 ≤ t) (h1 : t ≤ 8640000000000000) :
    timeClip t = some t := by
  unfold timeClip
  rw [if_pos]
  omega

/-! ## The rolling windows -/

theorem keptByDate_mono (env : Env) (f : String) {c c' : Int} (h : c ≤ c') (r : JVal) :
    keptByDate env f (some (some c')) r = true → keptByDate env f (some (some c)) r = true := by
  unfold keptByDate geCutoff dateGe
  cases (r.prop f).truthy <;> cases newDate env (r.prop f) <;> simp
  intro h'
  omega

theorem filter_window_sublist (env : Env) (f : String) {c c' : Int} (h : c ≤ c')
    (rs : List JVal) :
    (rs.filter (keptByDate env f (some (some c')))).Sublist
      (rs.filter (keptByDate env f (some (some c)))) :=
  List.monotone_filter_right rs (keptByDate_mono env f h)

/-- The five cutoffs of `getDateRange`, for a clock within the range of Date: whole days
before the clock reading, the month counting for 28 to 31 of them. -/
theorem getDateRange_cutoffs (env : Env)
    (hclock : -8640000000000000 + 31 * msPerDay ≤ env.now ∧ env.now ≤ 8640000000000000) :
    ∃ n : Int, 28 ≤ n ∧ n ≤ 31 ∧
      App.getDateRange env "1day" = some (some (env.now - 1 * msPerDay)) ∧
      App.getDateRange env "3days" = some (some (env.now - 3 * msPerDay)) ∧
      App.getDateRange env "1week" = some (some (env.now - 7 * msPerDay)) ∧
      App.getDateRange env "15days" = some (some (env.now - 15 * msPerDay)) ∧
      App.getDateRange env "1month" = some (some (env.now - n * msPerDay)) := by
  obtain ⟨n, hn0, hn1, hn⟩ := setMonth_getMonth_pred env env.now
  have hms : msPerDay = 86400000 := rfl
  rw [hms] at hclock
  refine ⟨n, hn0, hn1, ?_, ?_, ?_, ?_, ?_⟩
  · show some (setDate env env.now (getDate env env.now - 1)) = _
    rw [setDate_getDate_sub, timeClip_of_range (by rw [hms]; omega) (by rw [hms]; omega)]
  · show some (setDate env env.now (getDate env env.now - 3)) = _
    rw [setDate_getDate_sub, timeClip_of_range (by rw [hms]; omega) (by rw [hms]; omega)]
  · show some (setDate env env.now (getDate env env.now - 7)) = _
    rw [setDate_getDate_sub, timeClip_of_range (by rw [hms]; omega) (by rw [hms]; omega)]
  · show some (setDate env env.now (getDate env env.now - 15)) = _
    rw [setDate_getDate_sub, timeClip_of_range (by rw [hms]; omega) (by rw [hms]; omega)]
  · show some (setMonth env env.now (getMonth env env.now - 1)) = _
    rw [hn, timeClip_of_range (by rw [hms]; omega) (by rw [hms]; omega)]

theorem nestedWindows_of_filter (env : Env) (f : String)
    (filter : String → Except String (List JVal)) (rs : List JVal)
    (hf : ∀ sel, filter sel = .ok
      (if sel = "all" then rs else rs.filter (keptByDate env f (App.getDateRange env sel))))
    (hclock : -8640000000000000 + 31 * msPerDay ≤ env.now ∧ env.now ≤ 8640000000000000) :
    NestedWindows filter rs := by
  obtain ⟨n, hn0, hn1, h1, h3, h7, h15, h30⟩ := getDateRange_cutoffs env hclock
  have hms : (0 : Int) < msPerDay := by decide
  refine ⟨_, _, _, _, _, hf "1day", hf "3days", hf "1week", hf "15days", hf "1month",
    hf "all", ?_, ?_, ?_, ?_, ?_⟩
  · rw [if_neg (by decide), if_neg (by decide), h1, h3]
    exact filter_window_sublist env f (by omega) rs
  · rw [if_neg (by decide), if_neg (by decide), h3, h7]
    exact filter_window_sublist env f (by omega) rs
  · rw [if_neg (by decide), if_neg (by decide), h7, h15]
    exact filter_window_sublist env f (by omega) rs
  · rw [if_neg (by decide), if_neg (by decide), h15, h30]
    refine filter_window_sublist env f ?_ rs
    have := Int.mul_le_mul_of_nonneg_right (show (15 : Int) ≤ n by omega) (Int.le_of_lt hms)
    omega
  · rw [if_neg (by decide)]
    exact List.filter_sublist _

/-- C16: for a clock within the range of Date, the cutoffs of `getDateRange` satisfy
cutoff(1month) <= cutoff(15days) <= cutoff(1week) <= cutoff(3days) <= cutoff(1day) < now,
the month subtraction going back 28 to 31 days also where it overflows a month end; and on
records that are not `null` the results of the two date filters are nested accordingly. -/
theorem rolling_windows_are_nested (env : Env) (rs : List JVal)
    (hclock : -8640000000000000 + 31 * msPerDay ≤ env.now ∧ env.now ≤ 8640000000000000)
    (hrec : ∀ r ∈ rs, r.isNullish = false) :
    (∃ c1 c3 c7 c15 c30 : Int,
      App.getDateRange env "1day" = some (some c1) ∧
      App.getDateRange env "3days" = some (some c3) ∧
      App.getDateRange env "1week" = some (some c7) ∧
      App.getDateRange env "15days" = some (some c15) ∧
      App.getDateRange env "1month" = some (some c30) ∧
      c30 ≤ c15 ∧ c15 ≤ c7 ∧ c7 ≤ c3 ∧ c3 ≤ c1 ∧ c1 < env.now) ∧
    NestedWindows (fun sel => App.dateStage env sel rs) rs ∧
    NestedWindows (fun sel => App.filterReservationsByDate env rs sel) rs := by
  refine ⟨?_, ?_, ?_⟩
  · obtain ⟨n, hn0, hn1, h1, h3, h7, h15, h30⟩ := getDateRange_cutoffs env hclock
    have hms : msPerDay = 86400000 := rfl
    refine ⟨_, _, _, _, _, h1, h3, h7, h15, h30, ?_, ?_, ?_, ?_, ?_⟩ <;> rw [hms] <;> omega
  · exact nestedWindows_of_filter env "orderTime" _ rs
      (fun sel => dateStage_ok env sel hrec) hclock
  · exact nestedWindows_of_filter env "date" _ rs
      (fun sel => filterReservationsByDate_ok env sel hrec) hclock

/-- The scenario of C16: the clock reads 31 March 2024, where the month subtraction
overflows to 2 March; the cutoffs are ordered and the windows nested. -/
theorem rolling_windows_are_nested_witness :
    toDateString Sample.env (some Sample.env.now) = "Sun Mar 31 2024" ∧
    App.getDateRange Sample.env "1month" = some (some 1709380800000) ∧
    toDateString Sample.env (some 1709380800000) = "Sat Mar 02 2024" ∧
    App.getDateRange Sample.env "15days" = some (some 1710590400000) ∧
    (∃ c1 c3 c7 c15 c30 : Int,
      App.getDateRange Sample.env "1day" = some (some c1) ∧
      App.getDateRange Sample.env "3days" = some (some c3) ∧
      App.getDateRange Sample.env "1week" = some (some c7) ∧
      App.getDateRange Sample.env "15days" = some (some c15) ∧
      App.getDateRange Sample.env "1month" = some (some c30) ∧
      c30 ≤ c15 ∧ c15 ≤ c7 ∧ c7 ≤ c3 ∧ c3 ≤ c1 ∧ c1 < Sample.env.now) ∧
    NestedWindows
      (fun sel => App.dateStage Sample.env sel [Sample.orderA, Sample.orderB, Sample.orderNoTime])
      [Sample.orderA, Sample.orderB, Sample.orderNoTime] :=
  have h := rolling_windows_are_nested Sample.env
    [Sample.orderA, Sample.orderB, Sample.orderNoTime] (by decide) (by decide)
  ⟨by decide, by decide, by decide, by decide, h.1, h.2.1⟩

end TajMahal
